import Mathlib

/-!
Verification of the test-data management and validation engine of the
`mobile-python` repository (files `src/utils/data_manager.py` and
`src/utils/data_validator.py`).

The Python code is shallowly embedded: every definition below mirrors one
Python function or method; stateful methods are modelled by explicit state
passing.  Python runtime values are modelled by the inductive `JValue`
(Python floats are modelled by exact decimals plus infinity/NaN markers;
IEEE rounding is outside the model and never load-bearing for the claims).
The builtin Python operations that the code uses (`int()`, `float()`,
`str.strip`, `csv.DictReader`, the concrete `re` patterns of the
validator, dict/`==` semantics including `bool <: int`) are embedded with
their documented CPython semantics, restricted to ASCII input, which is
the only input exercised here.
-/

namespace MobilePython

/-- An exact decimal number `m * 10 ^ e`.  Finite Python floats arising in
this code base are exact decimals; representing them this way keeps all
arithmetic over `ℤ`.  Two representations denote the same number exactly
when `Dec.veq` holds. -/
structure Dec where
  m : ℤ
  e : ℤ
  deriving DecidableEq, Repr

/-- Brings two decimals to a common exponent for comparison. -/
def Dec.norm2 (a b : Dec) : ℤ × ℤ :=
  let k := min a.e b.e
  (a.m * 10 ^ (a.e - k).toNat, b.m * 10 ^ (b.e - k).toNat)

/-- Value order on decimals. -/
def Dec.blt (a b : Dec) : Bool :=
  decide ((Dec.norm2 a b).1 < (Dec.norm2 a b).2)

/-- Value equality on decimals. -/
def Dec.veq (a b : Dec) : Bool :=
  decide ((Dec.norm2 a b).1 = (Dec.norm2 a b).2)

/-- Python floats as used by this code base: an exact finite value, a signed
infinity, or NaN.  (`float()` can produce all three from strings.) -/
inductive PyFloat where
  | finite (d : Dec)
  | inf (neg : Bool)
  | nan
  deriving DecidableEq, Repr

/-- Python `<` on floats: NaN is incomparable with everything. -/
def PyFloat.lt : PyFloat → PyFloat → Bool
  | .finite a, .finite b => Dec.blt a b
  | .finite _, .inf neg => !neg
  | .inf neg, .finite _ => neg
  | .inf a, .inf b => a && !b
  | _, _ => false

/-- Python `==` on floats: NaN is not equal to anything, including itself. -/
def PyFloat.eq : PyFloat → PyFloat → Bool
  | .finite a, .finite b => Dec.veq a b
  | .inf a, .inf b => a == b
  | _, _ => false

/-- Python runtime values occurring in this code base (JSON/YAML/CSV data). -/
inductive JValue where
  | null
  | bool (b : Bool)
  | int (n : ℤ)
  | float (f : PyFloat)
  | str (s : String)
  | arr (xs : List JValue)
  | obj (fields : List (String × JValue))

namespace JValue

/-- Python `type(x).__name__` for the modelled values. -/
def typeName : JValue → String
  | .null => "NoneType"
  | .bool _ => "bool"
  | .int _ => "int"
  | .float _ => "float"
  | .str _ => "str"
  | .arr _ => "list"
  | .obj _ => "dict"

/-- `isinstance(v, str)` (booleans are not strings). -/
def isStr : JValue → Bool
  | .str _ => true
  | _ => false

/-- Numeric view: `isinstance(v, (int, float))` together with the numeric
value Python uses in comparisons.  Python `bool` is a subclass of `int`
with `True == 1` and `False == 0`. -/
def numVal : JValue → Option PyFloat
  | .bool b => some (.finite ⟨if b then 1 else 0, 0⟩)
  | .int n => some (.finite ⟨n, 0⟩)
  | .float f => some f
  | _ => none

end JValue

/-- First binding of a key in an association list; models lookup in a
Python `dict` (whose keys are unique, so "first" is exact). -/
def lookupField : List (String × JValue) → String → Option JValue
  | [], _ => none
  | (k, v) :: rest, key => if k = key then some v else lookupField rest key

/-! Structural (Lean-level) equality on modelled values is decidable; the
automatic `DecidableEq` derivation does not support this nested inductive,
so the decision procedure is spelled out.  (This is meta-level equality of
the model, distinct from Python `==`, which is `pyEq` below.) -/

mutual

def jbeq : JValue → JValue → Bool
  | .null, .null => true
  | .bool a, .bool b => a == b
  | .int a, .int b => decide (a = b)
  | .float a, .float b => decide (a = b)
  | .str a, .str b => a == b
  | .arr a, .arr b => jbeqL a b
  | .obj a, .obj b => jbeqF a b
  | _, _ => false

def jbeqL : List JValue → List JValue → Bool
  | [], [] => true
  | x :: xs, y :: ys => jbeq x y && jbeqL xs ys
  | _, _ => false

def jbeqF : List (String × JValue) → List (String × JValue) → Bool
  | [], [] => true
  | (k, v) :: fs, (k2, v2) :: fs2 => k == k2 && jbeq v v2 && jbeqF fs fs2
  | _, _ => false

end

theorem jbeqL_iff (xs ys : List JValue)
    (H : ∀ x ∈ xs, ∀ y, (jbeq x y = true ↔ x = y)) :
    jbeqL xs ys = true ↔ xs = ys := by
  induction xs generalizing ys with
  | nil => cases ys <;> simp [jbeqL]
  | cons x xs ih =>
    cases ys with
    | nil => simp [jbeqL]
    | cons y ys =>
      have hx := H x (List.mem_cons_self x xs)
      have hrest := ih ys fun z hz y => H z (List.mem_cons_of_mem x hz) y
      simp [jbeqL, hx y, hrest]

theorem jbeqF_iff (fs gs : List (String × JValue))
    (H : ∀ kv ∈ fs, ∀ y, (jbeq kv.2 y = true ↔ kv.2 = y)) :
    jbeqF fs gs = true ↔ fs = gs := by
  induction fs generalizing gs with
  | nil => cases gs <;> simp [jbeqF]
  | cons kv fs ih =>
    cases gs with
    | nil => cases kv; simp [jbeqF]
    | cons kv2 gs =>
      cases kv with
      | mk k v =>
        cases kv2 with
        | mk k2 v2 =>
          have hv := H (k, v) (List.mem_cons_self _ fs)
          have hrest := ih gs fun z hz y => H z (List.mem_cons_of_mem _ hz) y
          simp [jbeqF, hv v2, hrest, and_assoc]

theorem jbeq_iff : ∀ (a b : JValue), (jbeq a b = true ↔ a = b) := by
  suffices H : ∀ (n : ℕ) (a b : JValue), sizeOf a ≤ n → (jbeq a b = true ↔ a = b) by
    intro a b
    exact H (sizeOf a) a b le_rfl
  intro n
  induction n with
  | zero =>
    intro a b h
    cases a <;> simp at h
  | succ n ih =>
    intro a b h
    cases a <;> cases b <;> simp [jbeq]
    case arr.arr xs ys =>
      refine jbeqL_iff xs ys fun x hx y => ih x y ?_
      have h1 := List.sizeOf_lt_of_mem hx
      simp at h
      omega
    case obj.obj fs gs =>
      refine jbeqF_iff fs gs fun kv hkv y => ih kv.2 y ?_
      have h1 := List.sizeOf_lt_of_mem hkv
      have h2 : sizeOf kv.2 ≤ sizeOf kv := by
        cases kv
        simp_arith
      simp at h
      omega

instance : DecidableEq JValue :=
  fun a b => decidable_of_iff _ (jbeq_iff a b)

mutual

/-- Python `==` between modelled values: numeric values compare through the
numeric tower (`True == 1 == 1.0`), strings structurally, lists pointwise,
dicts by key set and per-key equality (keys assumed unique, as in any
Python dict). -/
def pyEq : JValue → JValue → Bool
  | .null, .null => true
  | .str a, .str b => a == b
  | .arr xs, .arr ys => pyEqList xs ys
  | .obj fa, .obj fb => fa.length == fb.length && pyEqFields fa fb
  | a, b =>
    match a.numVal, b.numVal with
    | some x, some y => x.eq y
    | _, _ => false

def pyEqList : List JValue → List JValue → Bool
  | [], [] => true
  | x :: xs, y :: ys => pyEq x y && pyEqList xs ys
  | _, _ => false

def pyEqFields : List (String × JValue) → List (String × JValue) → Bool
  | [], _ => true
  | (k, v) :: rest, fb =>
    (match lookupField fb k with
     | some w => pyEq v w
     | none => false) && pyEqFields rest fb

end

/-! ## Python numeric literal parsing

`DataManager._convert_csv_value` relies on the builtin `int()` and
`float()` conversions.  These accept an optional sign followed by decimal
digits, with single underscores allowed strictly between digits
(CPython ≥ 3.6); `float()` additionally accepts a fractional part, an
exponent, and the special spellings `inf`/`infinity`/`nan`
(case-insensitive).  Surrounding whitespace is accepted by both builtins
but the caller has already stripped it. -/

/-- A digit run with single underscores strictly between digits:
`d (_? d)*`.  The first character has already been checked to be a digit
by `pyDigitRun`. -/
def pyDigitRunTail : List Char → Bool
  | [] => true
  | '_' :: c :: rest => c.isDigit && pyDigitRunTail rest
  | ['_'] => false
  | c :: rest => c.isDigit && pyDigitRunTail rest

/-- Valid nonempty underscore-separated digit run. -/
def pyDigitRun : List Char → Bool
  | [] => false
  | c :: rest => c.isDigit && pyDigitRunTail rest

/-- Numeric value of a digit run (underscores removed beforehand). -/
def digitsToNat (cs : List Char) : ℕ :=
  cs.foldl (fun acc c => 10 * acc + (c.toNat - '0'.toNat)) 0

/-- Python `int(s)` on an already-stripped string: optional sign, then
decimal digits with optional single underscores between digits; `none`
models `ValueError`. -/
def pyIntParse (s : String) : Option ℤ :=
  let cs := s.toList
  let (sign, rest) :=
    match cs with
    | '+' :: r => ((1 : ℤ), r)
    | '-' :: r => ((-1 : ℤ), r)
    | r => ((1 : ℤ), r)
  if pyDigitRun rest then
    some (sign * (digitsToNat (rest.filter (· ≠ '_')) : ℤ))
  else
    none

/-- Splits a maximal underscore-digit run off the front of a character
list, returning the run and the remainder. -/
def takeDigitRun (cs : List Char) : List Char × List Char :=
  match cs with
  | c :: rest =>
    if c.isDigit || c = '_' then
      let (run, rem) := takeDigitRun rest
      (c :: run, rem)
    else
      ([], cs)
  | [] => ([], [])

/-- Value of the mantissa `intPart.fracPart` scaled by `10 ^ exp`, as an
exact decimal. -/
def decimalValue (intPart fracPart : List Char) (exp : ℤ) : Dec :=
  ⟨(digitsToNat (intPart ++ fracPart) : ℤ), exp - fracPart.length⟩

/-- Parses the exponent `e[sign]digits` suffix of a float literal. -/
def pyFloatExp (cs : List Char) : Option ℤ :=
  match cs with
  | [] => some 0
  | 'e' :: rest | 'E' :: rest =>
    let (esign, digits) :=
      match rest with
      | '+' :: r => ((1 : ℤ), r)
      | '-' :: r => ((-1 : ℤ), r)
      | r => ((1 : ℤ), r)
    if pyDigitRun digits then
      some (esign * (digitsToNat (digits.filter (· ≠ '_')) : ℤ))
    else
      none
  | _ => none

/-- Python `float(s)` on an already-stripped string.  `none` models
`ValueError`.  (IEEE rounding of the exact decimal value is outside the
model; the claims only depend on which strings parse and on values that
are exactly representable.) -/
def pyFloatParse (s : String) : Option MobilePython.PyFloat :=
  let cs := s.toList
  let (neg, rest) :=
    match cs with
    | '+' :: r => (false, r)
    | '-' :: r => (true, r)
    | r => (false, r)
  let low := (rest.map Char.toLower).asString
  if low = "inf" || low = "infinity" then
    some (.inf neg)
  else if low = "nan" then
    some .nan
  else
    let (intPart, rem) := takeDigitRun rest
    let fracPart :=
      match rem with
      | '.' :: r => (takeDigitRun r).1
      | _ => []
    let afterFrac :=
      match rem with
      | '.' :: r => (takeDigitRun r).2
      | _ => rem
    -- at least one digit overall; each present run must be well-formed
    if (intPart ≠ [] || fracPart ≠ []) &&
        (intPart = [] || pyDigitRun intPart) &&
        (fracPart = [] || pyDigitRun fracPart) then
      match pyFloatExp afterFrac with
      | some e =>
        let d := decimalValue (intPart.filter (· ≠ '_')) (fracPart.filter (· ≠ '_')) e
        some (.finite (if neg then ⟨-d.m, d.e⟩ else d))
      | none => none
    else
      none

/-! ## Python string helpers

Lean's own `String.trim`/`String.splitOn`/`String.toLower` are implemented
with well-founded recursion over byte positions; the structurally
recursive char-list versions below compute the same functions and mirror
the CPython operations the source uses (ASCII inputs). -/

/-- The whitespace stripped by Python `str.strip()` (ASCII range). -/
def pyIsSpace (c : Char) : Bool :=
  c = ' ' || c = '\t' || c = '\n' || c = '\r' || c = '\x0b' || c = '\x0c'

/-- Python `str.strip()`. -/
def pyStrip (s : String) : String :=
  (((s.toList.dropWhile pyIsSpace).reverse.dropWhile pyIsSpace).reverse).asString

/-- Python `str.lower()` (ASCII). -/
def pyLower (s : String) : String :=
  (s.toList.map Char.toLower).asString

/-- Splits a character list at every occurrence of `c` (like Python
`str.split(c)`). -/
def splitCh (c : Char) : List Char → List (List Char)
  | [] => [[]]
  | x :: rest =>
    if x = c then [] :: splitCh c rest
    else
      match splitCh c rest with
      | l :: ls => (x :: l) :: ls
      | [] => [[x]]

/-! ## `DataManager._convert_csv_value` and `DataManager._load_csv`

The tabular loader uses `csv.DictReader`: the first row gives the field
names, every further non-blank row becomes a dict pairing the field names
with the row's cells (missing cells filled with the `None` rest-value), and
each cell is passed through `_convert_csv_value`.  The excel dialect's
field splitting (comma separator, double-quoted fields with `""` escapes,
a quote special only at field start) is modelled per line; embedded
newlines inside quoted fields and a blank first line do not occur in the
data exercised here and are outside the model.  A row longer than the
header makes `DictReader` store the extra cells under the `None` rest-key
as a `list`, which `_convert_csv_value` cannot strip, so the whole load
fails with `DataValidationError`; this is modelled as an error result. -/

/-- Cell coercion of the tabular loader (`_convert_csv_value`); the `none`
input models the `None` rest-value of a short row. -/
def convert_csv_value : Option String → MobilePython.JValue
  | none => .null
  | some s =>
    if pyStrip s = "" then .null
    else
      let v := pyStrip s
      if pyLower v = "true" then .bool true
      else if pyLower v = "false" then .bool false
      else
        match (if v.toList.contains '.' then none else pyIntParse v) with
        | some n => .int n
        | none =>
          match pyFloatParse v with
          | some f => .float f
          | none => .str v

/-- Splits one CSV line into fields (excel dialect; see above). -/
def csvSplit : List Char → Bool → List Char → List String
  | [], _, cur => [cur.reverse.asString]
  | '"' :: '"' :: rest2, true, cur => csvSplit rest2 true ('"' :: cur)
  | '"' :: rest, true, cur => csvSplit rest false cur
  | c :: rest, true, cur => csvSplit rest true (c :: cur)
  | c :: rest, false, cur =>
    if c = ',' then cur.reverse.asString :: csvSplit rest false []
    else if c = '"' && cur = [] then csvSplit rest true cur
    else csvSplit rest false (c :: cur)

/-- One line of `csv.reader`: a blank line yields the empty row. -/
def parseCsvLine (cs : List Char) : List String :=
  if cs = [] then [] else csvSplit cs false []

/-- Drops a trailing carriage return (universal-newline handling). -/
def stripCR (cs : List Char) : List Char :=
  match cs.reverse with
  | '\r' :: r => r.reverse
  | _ => cs

/-- One `DictReader` row: field names paired with converted cells, short
rows padded with the `None` rest-value. -/
def mkRow (header : List String) (r : List String) : List (String × MobilePython.JValue) :=
  header.enum.map fun ik => (ik.2, convert_csv_value r[ik.1]?)

/-- `DataManager._load_csv` on the file's text content. -/
def load_csv (content : String) : Except String MobilePython.JValue :=
  let lines := (splitCh '\n' content.toList).map fun l => parseCsvLine (stripCR l)
  match lines with
  | [] => .ok (.arr [])
  | header :: rest =>
    let body := rest.filter (· ≠ [])
    if body.any fun r => r.length > header.length then
      .error "row longer than header"
    else
      .ok (.arr (body.map fun r => .obj (mkRow header r)))

/-! ## Format checkers of `DataValidator`

`DataValidator` registers eight built-in format validators, each guarding
with `isinstance(value, str)` and then matching one of the concrete
anchored regular expressions of `self._patterns` (or using
`datetime.strptime`/`datetime.fromisoformat`).  Each pattern is embedded
as the total-match predicate it denotes on ASCII strings; the `$` anchor's
tolerance for one trailing newline is not modelled (no input here ends in
a newline). -/

/-- Splits `cs` at the last occurrence of `c`; `none` if absent. -/
def splitAtLast (c : Char) : List Char → Option (List Char × List Char)
  | [] => none
  | x :: xs =>
    match splitAtLast c xs with
    | some (d, t) => some (x :: d, t)
    | none => if x = c then some ([], xs) else none

/-- Character class `[a-zA-Z0-9._%+-]` of the email pattern. -/
def isEmailLocalChar (c : Char) : Bool :=
  c.isAlpha || c.isDigit || c = '.' || c = '_' || c = '%' || c = '+' || c = '-'

/-- Character class `[a-zA-Z0-9.-]` of the email pattern. -/
def isEmailDomainChar (c : Char) : Bool :=
  c.isAlpha || c.isDigit || c = '.' || c = '-'

/-- The pattern `^[a-zA-Z0-9._%+-]+@[a-zA-Z0-9.-]+\.[a-zA-Z]{2,}$`.
Neither class contains `@`, so a match splits the string at its unique
`@`; the final `[a-zA-Z]{2,}$` cannot contain a dot, so the explicit `\.`
is the last dot of the domain part. -/
def emailMatch (s : String) : Bool :=
  match splitCh '@' s.toList with
  | [l, r] =>
    l ≠ [] && l.all isEmailLocalChar &&
    (match splitAtLast '.' r with
     | some (d, t) =>
       d ≠ [] && d.all isEmailDomainChar && t.length ≥ 2 && t.all Char.isAlpha
     | none => false)
  | _ => false

/-- Character class `[\d\s\-\(\)]` of the phone pattern (`\s` taken in its
ASCII range). -/
def isPhoneChar (c : Char) : Bool :=
  c.isDigit || pyIsSpace c || c = '-' || c = '(' || c = ')'

/-- The pattern `^\+?[\d\s\-\(\)]{10,}$` (`+` is not in the class, so a
leading `+` is consumed by `\+?`). -/
def phoneMatch (s : String) : Bool :=
  let cs := match s.toList with
    | '+' :: r => r
    | r => r
  cs.length ≥ 10 && cs.all isPhoneChar

/-- The pattern `^https?://[^\s/$.?#].[^\s]*$`: the scheme, one character
outside `\s/$.?#`, one non-newline character, then non-whitespace to the
end. -/
def urlMatch (s : String) : Bool :=
  let body? : Option (List Char) :=
    match s.toList with
    | 'h' :: 't' :: 't' :: 'p' :: 's' :: ':' :: '/' :: '/' :: rest => some rest
    | 'h' :: 't' :: 't' :: 'p' :: ':' :: '/' :: '/' :: rest => some rest
    | _ => none
  match body? with
  | some (c1 :: c2 :: rest) =>
    !pyIsSpace c1 && c1 ≠ '/' && c1 ≠ '$' && c1 ≠ '.' && c1 ≠ '?' && c1 ≠ '#' &&
    c2 ≠ '\n' && rest.all fun c => !pyIsSpace c
  | _ => false

/-- Character class `[0-9a-f]`. -/
def isHexLower (c : Char) : Bool :=
  c.isDigit || ('a' ≤ c && c ≤ 'f')

/-- The pattern `^[0-9a-f]{8}-[0-9a-f]{4}-[0-9a-f]{4}-[0-9a-f]{4}-[0-9a-f]{12}$`,
applied by `_validate_uuid` to `value.lower()`. -/
def uuidMatch (s : String) : Bool :=
  match splitCh '-' s.toList with
  | [a, b, c, d, e] =>
    a.length = 8 && b.length = 4 && c.length = 4 && d.length = 4 && e.length = 12 &&
    (a ++ b ++ c ++ d ++ e).all isHexLower
  | _ => false

/-- Character class `[@$!%*?&]` of the password pattern. -/
def isPwSpecial (c : Char) : Bool :=
  c = '@' || c = '$' || c = '!' || c = '%' || c = '*' || c = '?' || c = '&'

/-- The pattern
`^(?=.*[a-z])(?=.*[A-Z])(?=.*\d)(?=.*[@$!%*?&])[A-Za-z\d@$!%*?&]{8,}$`:
the body admits no newline, so each look-ahead reduces to containment. -/
def passwordMatch (s : String) : Bool :=
  let cs := s.toList
  cs.any Char.isLower && cs.any Char.isUpper && cs.any Char.isDigit &&
  cs.any isPwSpecial && cs.length ≥ 8 &&
  cs.all fun c => c.isAlpha || c.isDigit || isPwSpecial c

/-- The pattern `^[a-zA-Z0-9._-]{3,30}$`. -/
def usernameMatch (s : String) : Bool :=
  let cs := s.toList
  3 ≤ cs.length && cs.length ≤ 30 &&
  cs.all fun c => c.isAlpha || c.isDigit || c = '.' || c = '_' || c = '-'

/-- Gregorian leap year (as `datetime` uses). -/
def isLeap (y : ℕ) : Bool :=
  y % 4 = 0 && (y % 100 ≠ 0 || y % 400 = 0)

/-- Days in a month. -/
def daysInMonth (y m : ℕ) : ℕ :=
  if m = 2 then (if isLeap y then 29 else 28)
  else if m = 4 || m = 6 || m = 9 || m = 11 then 30
  else 31

/-- `datetime.strptime(value, "%Y-%m-%d")` succeeding: four year digits,
one or two month digits in 1..12, one or two day digits valid for the
month, nothing else (`strptime` rejects unconverted data, and the
`datetime` constructor rejects year 0). -/
def dateMatch (s : String) : Bool :=
  match splitCh '-' s.toList with
  | [ys, ms, ds] =>
    ys.length = 4 && ys.all Char.isDigit &&
    1 ≤ ms.length && ms.length ≤ 2 && ms.all Char.isDigit &&
    1 ≤ ds.length && ds.length ≤ 2 && ds.all Char.isDigit &&
    (let y := digitsToNat ys
     let m := digitsToNat ms
     let d := digitsToNat ds
     1 ≤ y && 1 ≤ m && m ≤ 12 && 1 ≤ d && d ≤ daysInMonth y m)
  | _ => false

/-- `YYYY-MM-DD` with strictly two-digit month and day, as
`datetime.fromisoformat` requires for its date part. -/
def isoDateOk : List Char → Bool
  | [y1, y2, y3, y4, '-', m1, m2, '-', d1, d2] =>
    [y1, y2, y3, y4, m1, m2, d1, d2].all Char.isDigit &&
    (let y := digitsToNat [y1, y2, y3, y4]
     let m := digitsToNat [m1, m2]
     let d := digitsToNat [d1, d2]
     1 ≤ y && 1 ≤ m && m ≤ 12 && 1 ≤ d && d ≤ daysInMonth y m)
  | _ => false

/-- Hour/minute/second bounds of the `datetime` constructor. -/
def hmsOk (h m s : ℕ) : Bool :=
  h ≤ 23 && m ≤ 59 && s ≤ 59

/-- The time part `HH[:MM[:SS[.fff[fff]]]]` accepted by
`datetime.fromisoformat` (CPython ≤ 3.10 grammar). -/
def isoTimeCore : List Char → Bool
  | [h1, h2] => [h1, h2].all Char.isDigit && hmsOk (digitsToNat [h1, h2]) 0 0
  | [h1, h2, ':', m1, m2] =>
    [h1, h2, m1, m2].all Char.isDigit &&
    hmsOk (digitsToNat [h1, h2]) (digitsToNat [m1, m2]) 0
  | [h1, h2, ':', m1, m2, ':', s1, s2] =>
    [h1, h2, m1, m2, s1, s2].all Char.isDigit &&
    hmsOk (digitsToNat [h1, h2]) (digitsToNat [m1, m2]) (digitsToNat [s1, s2])
  | h1 :: h2 :: ':' :: m1 :: m2 :: ':' :: s1 :: s2 :: '.' :: frac =>
    [h1, h2, m1, m2, s1, s2].all Char.isDigit &&
    hmsOk (digitsToNat [h1, h2]) (digitsToNat [m1, m2]) (digitsToNat [s1, s2]) &&
    (frac.length = 3 || frac.length = 6) && frac.all Char.isDigit
  | _ => false

/-- The timezone suffix `HH:MM[:SS[.ffffff]]` after its sign; the offset
must stay strictly below 24 hours for `timezone` to accept it. -/
def isoTzOk (cs : List Char) : Bool :=
  let core : Option (ℕ × ℕ × ℕ) :=
    match cs with
    | [h1, h2, ':', m1, m2] =>
      if [h1, h2, m1, m2].all Char.isDigit then
        some (digitsToNat [h1, h2], digitsToNat [m1, m2], 0)
      else none
    | [h1, h2, ':', m1, m2, ':', s1, s2] =>
      if [h1, h2, m1, m2, s1, s2].all Char.isDigit then
        some (digitsToNat [h1, h2], digitsToNat [m1, m2], digitsToNat [s1, s2])
      else none
    | h1 :: h2 :: ':' :: m1 :: m2 :: ':' :: s1 :: s2 :: '.' :: frac =>
      if [h1, h2, m1, m2, s1, s2].all Char.isDigit &&
          frac.length = 6 && frac.all Char.isDigit then
        some (digitsToNat [h1, h2], digitsToNat [m1, m2], digitsToNat [s1, s2])
      else none
    | _ => none
  match core with
  | some (h, m, s) => h * 3600 + m * 60 + s < 86400
  | none => false

/-- Splits at the first `+` or `-`, keeping the sign out of both parts. -/
def splitAtFirstSign : List Char → List Char × Option (List Char)
  | [] => ([], none)
  | c :: rest =>
    if c = '+' || c = '-' then ([], some rest)
    else
      let (a, b) := splitAtFirstSign rest
      (c :: a, b)

/-- `_validate_datetime`'s success condition:
`datetime.fromisoformat(value.replace("Z", "+00:00"))` parsing (CPython
≤ 3.10 grammar: strict date part, an arbitrary single separator
character, a time part, an optional signed offset). -/
def datetimeMatch (s : String) : Bool :=
  let cs := s.toList.flatMap fun c =>
    if c = 'Z' then ['+', '0', '0', ':', '0', '0'] else [c]
  isoDateOk (cs.take 10) &&
  (match cs.drop 10 with
   | [] => true
   | _sep :: tstr =>
     let (tpart, tz) := splitAtFirstSign tstr
     isoTimeCore tpart &&
     (match tz with
      | none => true
      | some tzs => isoTzOk tzs))

/-- `DataValidator._validate_email`. -/
def validate_email (v : JValue) : Bool :=
  match v with
  | .str s => emailMatch s
  | _ => false

/-- `DataValidator._validate_phone`. -/
def validate_phone (v : JValue) : Bool :=
  match v with
  | .str s => phoneMatch s
  | _ => false

/-- `DataValidator._validate_url`. -/
def validate_url (v : JValue) : Bool :=
  match v with
  | .str s => urlMatch s
  | _ => false

/-- `DataValidator._validate_date`. -/
def validate_date (v : JValue) : Bool :=
  match v with
  | .str s => dateMatch s
  | _ => false

/-- `DataValidator._validate_datetime`. -/
def validate_datetime (v : JValue) : Bool :=
  match v with
  | .str s => datetimeMatch s
  | _ => false

/-- `DataValidator._validate_uuid` (lower-cases before matching). -/
def validate_uuid (v : JValue) : Bool :=
  match v with
  | .str s => uuidMatch (pyLower s)
  | _ => false

/-- `DataValidator._validate_password`. -/
def validate_password (v : JValue) : Bool :=
  match v with
  | .str s => passwordMatch s
  | _ => false

/-- `DataValidator._validate_username`. -/
def validate_username (v : JValue) : Bool :=
  match v with
  | .str s => usernameMatch s
  | _ => false

/-- The `_format_validators` registry built in `DataValidator.__init__`
(no custom validators are registered anywhere in the repository). -/
def format_validators (name : String) : Option (JValue → Bool) :=
  match name with
  | "email" => some validate_email
  | "phone" => some validate_phone
  | "url" => some validate_url
  | "date" => some validate_date
  | "datetime" => some validate_datetime
  | "uuid" => some validate_uuid
  | "password" => some validate_password
  | "username" => some validate_username
  | _ => none

/-! ## The schema model

A schema in the source is a plain dict; the validator only ever reads the
keys below, so a schema is embedded as the record of those keys.  A `none`
field models an absent key.  Notes on fidelity:
* `required` is used both as the object-level list (iterated) and as the
  per-property truthy flag (`field_schema.get("required", False)`); every
  schema in the repository uses list values, so it is embedded as an
  optional list whose truthiness is non-emptiness;
* `pattern` is passed verbatim to `re.match`, so it is embedded as the
  prefix-match predicate the regex denotes (an absent or empty — falsy —
  pattern is `none`);
* `nullable` is read through `schema.get("nullable", False)` as a truth
  value;
* numeric bounds are integers in every schema of the repository and are
  embedded as such (their messages interpolate the bound with `str`). -/
inductive Schema where
  | mk
    (type? : Option String)
    (required? : Option (List String))
    (properties? : Option (List (String × Schema)))
    (items? : Option Schema)
    (nullable : Bool)
    (format? : Option String)
    (minLength? : Option ℕ)
    (maxLength? : Option ℕ)
    (pattern? : Option (String → Bool))
    (minimum? : Option ℤ)
    (maximum? : Option ℤ)
    (minItems? : Option ℕ)
    (maxItems? : Option ℕ)
    (enum? : Option (List JValue))

namespace Schema

/-- `schema.get("type")`. -/
def type? : Schema → Option String
  | .mk t _ _ _ _ _ _ _ _ _ _ _ _ _ => t

/-- `schema.get("required")` / `"required" in schema`. -/
def required? : Schema → Option (List String)
  | .mk _ r _ _ _ _ _ _ _ _ _ _ _ _ => r

/-- `schema.get("properties")` / `"properties" in schema`. -/
def properties? : Schema → Option (List (String × Schema))
  | .mk _ _ p _ _ _ _ _ _ _ _ _ _ _ => p

/-- `schema.get("items")` / `"items" in schema`. -/
def items? : Schema → Option Schema
  | .mk _ _ _ i _ _ _ _ _ _ _ _ _ _ => i

/-- `schema.get("nullable", False)` as a truth value. -/
def nullable : Schema → Bool
  | .mk _ _ _ _ n _ _ _ _ _ _ _ _ _ => n

/-- `schema.get("format")`. -/
def format? : Schema → Option String
  | .mk _ _ _ _ _ f _ _ _ _ _ _ _ _ => f

/-- `schema.get("minLength")`. -/
def minLength? : Schema → Option ℕ
  | .mk _ _ _ _ _ _ a _ _ _ _ _ _ _ => a

/-- `schema.get("maxLength")`. -/
def maxLength? : Schema → Option ℕ
  | .mk _ _ _ _ _ _ _ b _ _ _ _ _ _ => b

/-- `schema.get("pattern")` as the regex's prefix-match predicate. -/
def pattern? : Schema → Option (String → Bool)
  | .mk _ _ _ _ _ _ _ _ p _ _ _ _ _ => p

/-- `schema.get("minimum")`. -/
def minimum? : Schema → Option ℤ
  | .mk _ _ _ _ _ _ _ _ _ m _ _ _ _ => m

/-- `schema.get("maximum")`. -/
def maximum? : Schema → Option ℤ
  | .mk _ _ _ _ _ _ _ _ _ _ m _ _ _ => m

/-- `schema.get("minItems")`. -/
def minItems? : Schema → Option ℕ
  | .mk _ _ _ _ _ _ _ _ _ _ _ a _ _ => a

/-- `schema.get("maxItems")`. -/
def maxItems? : Schema → Option ℕ
  | .mk _ _ _ _ _ _ _ _ _ _ _ _ b _ => b

/-- `schema.get("enum")`. -/
def enum? : Schema → Option (List JValue)
  | .mk _ _ _ _ _ _ _ _ _ _ _ _ _ e => e

/-- Truthiness of `field_schema.get("required", False)` for list-valued
`required` keys: a non-empty list. -/
def requiredTruthy (s : Schema) : Bool :=
  match s.required? with
  | some l => l ≠ []
  | none => false

/-- The all-absent schema, the embedding of the empty dict. -/
def empty : Schema :=
  .mk none none none none false none none none none none none none none none

end Schema

/-! ## `ValidationResult` -/

/-- `ValidationLevel`. -/
inductive VLevel where
  | error
  | warning
  | info
  deriving DecidableEq, Repr

/-- `ValidationResult`. -/
structure VResult where
  is_valid : Bool
  errors : List String
  warnings : List String
  info : List String
  deriving DecidableEq, Repr

/-- `ValidationResult(is_valid=True)` as created by `validate_data`. -/
def VResult.fresh : VResult :=
  ⟨true, [], [], []⟩

/-- `ValidationResult.add_message`. -/
def VResult.add_message (r : VResult) (message : String) (level : VLevel) : VResult :=
  match level with
  | .error => { r with errors := r.errors ++ [message], is_valid := false }
  | .warning => { r with warnings := r.warnings ++ [message] }
  | .info => { r with info := r.info ++ [message] }

/-- `ValidationResult.get_all_messages`. -/
def VResult.get_all_messages (r : VResult) : List String :=
  (r.errors.map fun m => "ERROR: " ++ m) ++
  (r.warnings.map fun m => "WARNING: " ++ m) ++
  (r.info.map fun m => "INFO: " ++ m)

/-- A single-quote character, used when building Python message strings. -/
def sq : String :=
  (Char.ofNat 39).toString

/-! ## Python `repr`, for the interpolated enum message -/

/-- Python `repr` of a string: single quotes preferred, double quotes when
the text contains a single quote but no double quote; backslash and the
quoting character escaped (inputs here are printable ASCII). -/
def pyReprStr (s : String) : String :=
  let hasSq := s.toList.contains (Char.ofNat 39)
  let hasDq := s.toList.contains '"'
  let quote := if hasSq && !hasDq then "\"" else sq
  let qc := if hasSq && !hasDq then '"' else Char.ofNat 39
  let body := s.toList.flatMap fun c =>
    if c = '\\' then ['\\', '\\']
    else if c = qc then ['\\', c]
    else [c]
  quote ++ body.asString ++ quote

/-- Decimal rendering of an exact decimal, matching Python `repr` on the
plain decimal floats appearing in this code base (the scientific-notation
thresholds of `repr` are outside the model). -/
def decRepr (d : Dec) : String :=
  let sign := if d.m < 0 then "-" else ""
  let digits := (toString d.m.natAbs).toList
  if d.e ≥ 0 then
    sign ++ digits.asString ++ (List.replicate d.e.toNat '0').asString ++ ".0"
  else
    let k := (-d.e).toNat
    let padded :=
      if digits.length ≤ k then List.replicate (k + 1 - digits.length) '0' ++ digits
      else digits
    let ip := padded.take (padded.length - k)
    let fp := padded.drop (padded.length - k)
    sign ++ ip.asString ++ "." ++ fp.asString

mutual

/-- Python `repr` of a modelled value, as interpolated by f-strings. -/
def pyRepr : JValue → String
  | .null => "None"
  | .bool b => if b then "True" else "False"
  | .int n => toString n
  | .float (.finite d) => decRepr d
  | .float (.inf neg) => if neg then "-inf" else "inf"
  | .float .nan => "nan"
  | .str s => pyReprStr s
  | .arr xs => "[" ++ pyReprList xs ++ "]"
  | .obj fs => "\x7b" ++ pyReprFields fs ++ "\x7d"

def pyReprList : List JValue → String
  | [] => ""
  | [x] => pyRepr x
  | x :: xs => pyRepr x ++ ", " ++ pyReprList xs

def pyReprFields : List (String × JValue) → String
  | [] => ""
  | [(k, v)] => pyReprStr k ++ ": " ++ pyRepr v
  | (k, v) :: fs => pyReprStr k ++ ": " ++ pyRepr v ++ ", " ++ pyReprFields fs

end

/-! ## `DataValidator._check_type` and `_validate_constraints` -/

/-- `DataValidator._check_type`.  Python `bool` is a subclass of `int`, so
booleans pass the `integer` and `number` checks; an unknown expected type
is accepted. -/
def check_type (value : JValue) (expected : String) : Bool :=
  match expected with
  | "string" => value.isStr
  | "integer" =>
    match value with
    | .int _ | .bool _ => true
    | _ => false
  | "number" =>
    match value with
    | .int _ | .float _ | .bool _ => true
    | _ => false
  | "boolean" =>
    match value with
    | .bool _ => true
    | _ => false
  | "array" =>
    match value with
    | .arr _ => true
    | _ => false
  | "object" =>
    match value with
    | .obj _ => true
    | _ => false
  | "null" =>
    match value with
    | .null => true
    | _ => false
  | _ => true

/-- The type-mismatch message of `_validate_object`/`_validate_field`. -/
def typeErrMsg (path t : String) (value : JValue) : String :=
  path ++ ": Expected type " ++ t ++ ", got " ++ value.typeName

/-- `DataValidator._validate_constraints`: string length/pattern bounds,
numeric bounds (booleans count as numbers), array item-count bounds, and
enum membership (an empty enum list is falsy and skipped). -/
def validate_constraints (value : JValue) (s : Schema) (r : VResult) (path : String) : VResult :=
  let r :=
    match value with
    | .str str =>
      let r :=
        match s.minLength? with
        | some n =>
          if str.length < n then
            r.add_message (path ++ ": String too short (min: " ++ toString n ++ ")") .error
          else r
        | none => r
      let r :=
        match s.maxLength? with
        | some n =>
          if str.length > n then
            r.add_message (path ++ ": String too long (max: " ++ toString n ++ ")") .error
          else r
        | none => r
      match s.pattern? with
      | some p =>
        if !p str then
          r.add_message (path ++ ": String doesn" ++ sq ++ "t match pattern") .error
        else r
      | none => r
    | _ => r
  let r :=
    match value.numVal with
    | some x =>
      let r :=
        match s.minimum? with
        | some m =>
          if PyFloat.lt x (.finite ⟨m, 0⟩) then
            r.add_message (path ++ ": Value too small (min: " ++ toString m ++ ")") .error
          else r
        | none => r
      match s.maximum? with
      | some m =>
        if PyFloat.lt (.finite ⟨m, 0⟩) x then
          r.add_message (path ++ ": Value too large (max: " ++ toString m ++ ")") .error
        else r
      | none => r
    | none => r
  let r :=
    match value with
    | .arr xs =>
      let r :=
        match s.minItems? with
        | some n =>
          if xs.length < n then
            r.add_message (path ++ ": Too few items (min: " ++ toString n ++ ")") .error
          else r
        | none => r
      match s.maxItems? with
      | some n =>
        if xs.length > n then
          r.add_message (path ++ ": Too many items (max: " ++ toString n ++ ")") .error
        else r
      | none => r
    | _ => r
  match s.enum? with
  | some es =>
    if !es.isEmpty && !(es.any fun e => pyEq value e) then
      r.add_message (path ++ ": Value must be one of " ++ pyRepr (.arr es)) .error
    else r
  | none => r

/-! ## The recursive walk: `_validate_object` and `_validate_field` -/

/-- The required-field loop of `_validate_object`: one error per listed
field absent from the dict. -/
def check_required (flds : List (String × JValue)) (reqs : List String)
    (r : VResult) (path : String) : VResult :=
  reqs.foldl
    (fun acc f =>
      if (lookupField flds f).isNone then
        acc.add_message (path ++ ": Missing required field " ++ sq ++ f ++ sq) .error
      else acc)
    r

/-- The early-returning type check shared by `_validate_object` and
`_validate_field` (`if expected_type and not self._check_type(...)`; an
absent or empty — falsy — `type` is skipped). -/
def typeCheckFails (value : JValue) (s : Schema) : Bool :=
  match s.type? with
  | some t => !(t = "") && !check_type value t
  | none => false

/-- The format-check phase of `_validate_field`: a named, registered
format whose checker rejects the value appends one error. -/
def format_step (value : JValue) (fmt? : Option String) (r : VResult) (path : String) : VResult :=
  match fmt? with
  | some fmt =>
    match format_validators fmt with
    | some chk =>
      if !chk value then
        r.add_message (path ++ ": Invalid " ++ fmt ++ " format") .error
      else r
    | none => r
  | none => r

mutual

/-- `DataValidator._validate_object`: type check (stopping on failure),
required fields, per-property recursion, per-item recursion, then
constraints. -/
def validate_object : JValue → Schema → VResult → String → VResult
  | data, .mk t? req? props? items? nul fmt? mnl mxl pat mn mx mni mxi en, r, path =>
    let s := Schema.mk t? req? props? items? nul fmt? mnl mxl pat mn mx mni mxi en
    if typeCheckFails data s then
      match t? with
      | some t => r.add_message (typeErrMsg path t data) .error
      | none => r
    else
      let r := required_step data req? r path
      let r := props_step data props? r path
      let r := items_step data items? r path
      validate_constraints data s r path

/-- The `isinstance(data, dict) and "required" in schema` phase of
`_validate_object`. -/
def required_step (data : JValue) : Option (List String) → VResult → String → VResult
  | some reqs, r, path =>
    match data with
    | .obj flds => check_required flds reqs r path
    | _ => r
  | none, r, _ => r

/-- The `isinstance(data, dict) and "properties" in schema` phase of
`_validate_object`. -/
def props_step (data : JValue) : Option (List (String × Schema)) → VResult → String → VResult
  | some props, r, path =>
    match data with
    | .obj flds => validate_props flds props r path
    | _ => r
  | none, r, _ => r

/-- The `isinstance(data, list) and "items" in schema` phase of
`_validate_object`: every element is validated against the `items` schema
with the index appended to the path. -/
def items_step (data : JValue) : Option Schema → VResult → String → VResult
  | some isc, r, path =>
    match data with
    | .arr xs =>
      xs.enum.foldl
        (fun acc ix =>
          validate_object ix.2 isc acc (path ++ "[" ++ toString ix.1 ++ "]"))
        r
    | _ => r
  | none, r, _ => r

/-- The property loop of `_validate_object`: validates each field listed
in `properties` that is present in the dict, and reports a missing field
whose property schema carries a truthy `required` flag. -/
def validate_props : List (String × JValue) → List (String × Schema) → VResult → String → VResult
  | _, [], r, _ => r
  | flds, (f, fs) :: rest, r, path =>
    let fpath := if path = "root" then f else path ++ "." ++ f
    let r :=
      match lookupField flds f with
      | some v => validate_field v fs r fpath
      | none =>
        if fs.requiredTruthy then
          r.add_message (fpath ++ ": Required field is missing") .error
        else r
    validate_props flds rest r path

/-- `DataValidator._validate_field`: null handling, type check (stopping
on failure), format check, constraints, then recursion into the same
value and schema through `_validate_object` for dict values with
`properties` or list values with `items`.  That tail call is inlined
(the code between `begin/end inlined _validate_object` is literally the
body of `validate_object` at the same four arguments) so that the
recursion descends only into strict sub-schemas. -/
def validate_field : JValue → Schema → VResult → String → VResult
  | value, .mk t? req? props? items? nul fmt? mnl mxl pat mn mx mni mxi en, r, path =>
    let s := Schema.mk t? req? props? items? nul fmt? mnl mxl pat mn mx mni mxi en
    match value with
    | .null =>
      if !nul then r.add_message (path ++ ": Value cannot be null") .error
      else r
    | _ =>
      if typeCheckFails value s then
        match t? with
        | some t => r.add_message (typeErrMsg path t value) .error
        | none => r
      else
        let r := format_step value fmt? r path
        let r := validate_constraints value s r path
        let goRec : Bool :=
          match value with
          | .obj _ => props?.isSome
          | .arr _ => items?.isSome
          | _ => false
        if goRec then
          -- begin inlined `_validate_object value s r path`
          if typeCheckFails value s then
            match t? with
            | some t => r.add_message (typeErrMsg path t value) .error
            | none => r
          else
            let r := required_step value req? r path
            let r := props_step value props? r path
            let r := items_step value items? r path
            validate_constraints value s r path
          -- end inlined `_validate_object`
        else r

end

/-- `DataValidator.validate_data`: runs `_validate_object` at path `root`
on a fresh result.  (The surrounding `try`/`except` never fires on the
well-formed schemas representable here, since no modelled operation
raises.) -/
def validate_data (data : JValue) (s : Schema) : VResult :=
  validate_object data s VResult.fresh "root"

/-! ## `SchemaManager`

`SchemaManager.load_schema` consults its name-keyed cache, then reads
`<name>.json` from the schema directory: a missing file or a parse error
returns `None` (logged, not raised) without caching; a parsed document is
cached and returned.  `validate_with_schema` treats a falsy result — both
`None` and an empty document `{}` — as "schema not found".  A parsed
document is modelled as the `Schema` projection of the dict plus its
truthiness (whether the dict is non-empty); every schema file in the
repository parses to a dict. -/

/-- A parsed schema document: its validator projection and the truthiness
of the underlying dict. -/
structure SDoc where
  truthy : Bool
  schema : Schema

/-- The schema directory combined with `json.load`: `none` means the file
`<name>.json` does not exist, `Except.error` a parse failure. -/
abbrev SchemaDir := String → Option (Except String SDoc)

/-- `SchemaManager.load_schema`, with the `_schemas` cache passed and
returned explicitly. -/
def load_schema (dir : SchemaDir) (cache : List (String × SDoc)) (schema_name : String) :
    Option SDoc × List (String × SDoc) :=
  match cache.lookup schema_name with
  | some d => (some d, cache)
  | none =>
    match dir schema_name with
    | none => (none, cache)
    | some (.error _) => (none, cache)
    | some (.ok d) => (some d, cache ++ [(schema_name, d)])

/-- The synthetic result `validate_with_schema` builds for an unresolved
schema name: `ValidationResult(is_valid=False)` plus one error. -/
def schemaNotFound (schema_name : String) : VResult :=
  (VResult.mk false [] [] []).add_message
    ("Schema " ++ sq ++ schema_name ++ sq ++ " not found") .error

/-- `SchemaManager.validate_with_schema`: load (or reuse) the named
schema; a falsy document yields the synthetic error result, otherwise the
data is validated against it. -/
def validate_with_schema (dir : SchemaDir) (cache : List (String × SDoc))
    (data : JValue) (schema_name : String) : VResult × List (String × SDoc) :=
  match load_schema dir cache schema_name with
  | (some d, cache1) =>
    if d.truthy then (validate_data data d.schema, cache1)
    else (schemaNotFound schema_name, cache1)
  | (none, cache1) => (schemaNotFound schema_name, cache1)

/-! ## `DataManager`: loading and caching

`load_data` resolves `data_directory / filename`, and fails for a missing
file or an unsupported extension.  The cache (`_cache`, keyed by the
resolved path) is consulted: with `force_reload` unset, an entry with
caching enabled whose recorded timestamp is not older than the file's
mtime is returned without invoking any loader.  Otherwise the loader for
the extension runs and, on success, value and timestamp are stored
together.  The filesystem is modelled as one snapshot per call (path →
mtime and text content); the record (JSON) and hierarchical (YAML)
parsers are opaque parameters of the context, while the tabular loader is
the concrete `load_csv` above.  The returned `Bool` records whether a
loader was invoked (the call-count instrumentation of the spec). -/

/-- A file visible in the modelled filesystem snapshot. -/
structure File where
  mtime : ℕ
  content : String
  deriving DecidableEq, Repr

/-- The `DataSource` dataclass (cache entry). -/
structure DataSource where
  file_path : String
  format : String
  cache_enabled : Bool
  last_modified : Option ℕ
  data : JValue
  deriving DecidableEq

/-- Ambient state of a `DataManager` call: the data directory, the
filesystem snapshot, and the two opaque parsers. -/
structure DMCtx where
  dataDir : String
  fs : String → Option File
  jsonParse : String → Except String JValue
  yamlParse : String → Except String JValue

/-- `pathlib.Path.suffix` of the final path component, lower-cased as in
`_get_file_format`. -/
def pathSuffix (p : String) : String :=
  let name :=
    match splitAtLast '/' p.toList with
    | some (_, n) => n
    | none => p.toList
  match splitAtLast '.' name with
  | some (stem, ext) =>
    if stem = [] || ext = [] then ""
    else (('.' :: ext).map Char.toLower).asString
  | none => ""

/-- The `_supported_formats` table of `DataManager.__init__`. -/
def supported_formats (ctx : DMCtx) (ext : String) :
    Option (String → Except String JValue) :=
  match ext with
  | ".json" => some ctx.jsonParse
  | ".yaml" => some ctx.yamlParse
  | ".yml" => some ctx.yamlParse
  | ".csv" => some load_csv
  | _ => none

/-- `DataManager._is_file_modified`: no recorded time counts as modified;
a failing `stat` (file vanished) counts as modified. -/
def is_file_modified (fs : String → Option File) (path : String) (cached : Option ℕ) : Bool :=
  match cached with
  | none => true
  | some t =>
    match fs path with
    | some f => decide (f.mtime > t)
    | none => true

/-- The exceptions `load_data` can raise. -/
inductive LoadErr where
  | fileNotFound (path : String)
  | unsupportedFormat (fmt : String)
  | dataError (msg : String)
  deriving DecidableEq, Repr

/-- Replaces (or adds) the binding of `k` in the cache. -/
def setCache (cache : List (String × DataSource)) (k : String) (v : DataSource) :
    List (String × DataSource) :=
  match cache with
  | [] => [(k, v)]
  | (k0, v0) :: rest =>
    if k0 = k then (k, v) :: rest else (k0, v0) :: setCache rest k v

/-- The load-and-store tail of `load_data`: run the loader and, on
success, replace the cache entry's value and timestamp together. -/
def load_and_store (cache : List (String × DataSource)) (file_path file_format : String)
    (file : File) (loader : String → Except String JValue) :
    Except LoadErr JValue × List (String × DataSource) × Bool :=
  match loader file.content with
  | .error m => (.error (.dataError m), cache, true)
  | .ok d =>
    (.ok d,
     setCache cache file_path ⟨file_path, file_format, true, some file.mtime, d⟩,
     true)

/-- `DataManager.load_data`: `(result, cache after the call, whether a
loader was invoked)`. -/
def load_data (ctx : DMCtx) (cache : List (String × DataSource))
    (filename : String) (force_reload : Bool) :
    Except LoadErr JValue × List (String × DataSource) × Bool :=
  let file_path := ctx.dataDir ++ "/" ++ filename
  match ctx.fs file_path with
  | none => (.error (.fileNotFound file_path), cache, false)
  | some file =>
    let file_format := pathSuffix file_path
    match supported_formats ctx file_format with
    | none => (.error (.unsupportedFormat file_format), cache, false)
    | some loader =>
      match cache.lookup file_path with
      | some src =>
        if !force_reload && src.cache_enabled &&
            !is_file_modified ctx.fs file_path src.last_modified then
          (.ok src.data, cache, false)
        else
          load_and_store cache file_path file_format file loader
      | none => load_and_store cache file_path file_format file loader

/-! ## `DataManager.get_device_data`

The accessor loads `devices.csv`, then applies the truthy filters in
order with `d.get(key, "").lower() == arg.lower()`.  Any exception in the
`try` block — a load failure, or an `AttributeError` from `.get`/`.lower`
when a row or cell is not of the expected type — is caught and turns the
result into the empty list.  (Iterating a non-list value either raises
`TypeError` or, for an empty dict or string, yields no rows and hence the
same empty final result; both are modelled as the caught-error branch.) -/

/-- `d.get(key, "").lower()` for one row: an absent key defaults to the
empty string; a non-dict row or non-string cell raises. -/
def rowFieldLower (row : JValue) (key : String) : Except Unit String :=
  match row with
  | .obj flds =>
    match lookupField flds key with
    | some (.str s) => .ok (pyLower s)
    | some _ => .error ()
    | none => .ok ""
  | _ => .error ()

/-- The list comprehension of one filter pass: the predicate is evaluated
per row in order, and a raising row aborts the whole comprehension. -/
def filter_rows (rows : List JValue) (key p : String) : Except Unit (List JValue) :=
  match rows with
  | [] => .ok []
  | d :: rest => do
    let keep ← (rowFieldLower d key).map (· == pyLower p)
    let tail ← filter_rows rest key p
    pure (if keep then d :: tail else tail)

/-- One truthy filter pass of `get_device_data`. -/
def filter_devices (data : JValue) (key : String) (p : String) : Except Unit JValue :=
  match data with
  | .arr rows => (filter_rows rows key p).map .arr
  | _ => .error ()

/-- A filter argument is applied only when truthy (`if platform:`). -/
def applyFilter (data : JValue) (key : String) (filt : Option String) : Except Unit JValue :=
  match filt with
  | none => .ok data
  | some p => if p = "" then .ok data else filter_devices data key p

/-- `DataManager.get_device_data`: returns the (possibly filtered) rows
of `devices.csv`, or the empty list when anything in the `try` block
raises.  The cache state after the call is returned alongside. -/
def get_device_data (ctx : DMCtx) (cache : List (String × DataSource))
    (platform priority : Option String) : JValue × List (String × DataSource) :=
  match load_data ctx cache "devices.csv" false with
  | (.error _, cache1, _) => (.arr [], cache1)
  | (.ok devices, cache1, _) =>
    match (applyFilter devices "platform" platform).bind
        (fun d1 => applyFilter d1 "test_priority" priority) with
    | .ok d => (d, cache1)
    | .error _ => (.arr [], cache1)


end MobilePython










namespace MobilePython

/-! # Claim theorems -/

/-! ## C7: object-level required fields -/

/-- The schema `(type: object, required: [id, username, password])` of the
spec's example. -/
def requiredTripleSchema : Schema :=
  .mk (some "object") (some ["id", "username", "password"]) none none false
    none none none none none none none none none

theorem check_required_spec (reqs : List String) (flds : List (String × JValue))
    (r : VResult) (path : String) :
    check_required flds reqs r path =
      ⟨r.is_valid && (reqs.filter fun f => (lookupField flds f).isNone).isEmpty,
       r.errors ++ (reqs.filter fun f => (lookupField flds f).isNone).map
         (fun f => path ++ ": Missing required field " ++ sq ++ f ++ sq),
       r.warnings, r.info⟩ := by
  induction reqs generalizing r with
  | nil => simp [check_required]
  | cons f rest ih =>
    have hstep : check_required flds (f :: rest) r path =
        check_required flds rest
          (if (lookupField flds f).isNone then
            r.add_message (path ++ ": Missing required field " ++ sq ++ f ++ sq) .error
          else r) path := rfl
    rw [hstep]
    by_cases h : (lookupField flds f).isNone
    · rw [if_pos h, ih]
      simp [VResult.add_message, List.filter_cons, h]
    · rw [if_neg h, ih]
      simp [List.filter_cons, h]

/-- C7: for object-typed schemas with a `required` list, the required
check appends exactly one error per listed field absent from the dict
(independently of `properties`), and validating `{}` against
`{type: object, required: [id, username, password]}` yields exactly the
three per-field errors with overall validity `false`. -/
theorem C7_required_one_error_per_missing_field :
    (∀ (reqs : List String) (flds : List (String × JValue)) (r : VResult) (path : String),
      check_required flds reqs r path =
        ⟨r.is_valid && (reqs.filter fun f => (lookupField flds f).isNone).isEmpty,
         r.errors ++ (reqs.filter fun f => (lookupField flds f).isNone).map
           (fun f => path ++ ": Missing required field " ++ sq ++ f ++ sq),
         r.warnings, r.info⟩) ∧
    validate_data (.obj []) requiredTripleSchema =
      ⟨false,
       ["root: Missing required field " ++ sq ++ "id" ++ sq,
        "root: Missing required field " ++ sq ++ "username" ++ sq,
        "root: Missing required field " ++ sq ++ "password" ++ sq],
       [], []⟩ ∧
    (validate_data (.obj []) requiredTripleSchema).errors.length = 3 ∧
    (validate_data (.obj []) requiredTripleSchema).is_valid = false :=
  ⟨fun reqs flds r path => check_required_spec reqs flds r path,
   by decide, by decide, by decide⟩

end MobilePython

namespace MobilePython

/-! ## C10: booleans pass the integer/number type checks -/

/-- Schema with property `flag : {type: integer, minimum: 2}`. -/
def flagIntMin2Schema : Schema :=
  .mk none none
    (some [("flag", .mk (some "integer") none none none false none none none none
      (some 2) none none none none)])
    none false none none none none none none none none none

/-- C10: `_check_type` accepts booleans for expected types `integer` and
`number` (Python `bool` is a subclass of `int`), so no type error is
emitted for a boolean where the schema says integer/number — at top level
and for property fields — and booleans are then subjected to the numeric
minimum/maximum checks with `True = 1`, `False = 0`. -/
theorem C10_bool_is_integer_and_number :
    (∀ b, check_type (.bool b) "integer" = true ∧
      check_type (.bool b) "number" = true ∧
      check_type (.bool b) "boolean" = true) ∧
    (∀ b (m : ℤ) (r : VResult) (path : String),
      validate_constraints (.bool b)
          (.mk none none none none false none none none none (some m) none none none none)
          r path =
        if (if b then (1 : ℤ) else 0) < m then
          r.add_message (path ++ ": Value too small (min: " ++ toString m ++ ")") .error
        else r) ∧
    validate_data (.bool true)
      (.mk (some "integer") none none none false none none none none none none none none none) =
      VResult.fresh ∧
    validate_data (.bool true)
      (.mk (some "number") none none none false none none none none none none none none none) =
      VResult.fresh ∧
    validate_data (.obj [("flag", .bool true)]) flagIntMin2Schema =
      ⟨false, ["flag: Value too small (min: 2)"], [], []⟩ := by
  refine ⟨fun b => ⟨rfl, rfl, rfl⟩, ?_, by decide, by decide, by decide⟩
  intro b m r path
  simp only [validate_constraints, Schema.minLength?, Schema.maxLength?, Schema.pattern?,
    Schema.minimum?, Schema.maximum?, Schema.minItems?, Schema.maxItems?, Schema.enum?,
    JValue.numVal, PyFloat.lt, Dec.blt, Dec.norm2]
  cases b <;> simp

end MobilePython

namespace MobilePython

/-! ## C2: tabular cell coercion order -/

instance {e a : Type} [DecidableEq e] [DecidableEq a] : DecidableEq (Except e a) :=
  fun x y =>
    match x, y with
    | .ok u, .ok v => decidable_of_iff (u = v) (by simp)
    | .error u, .error v => decidable_of_iff (u = v) (by simp)
    | .ok _, .error _ => isFalse (by simp)
    | .error _, .ok _ => isFalse (by simp)

/-- C2: `_convert_csv_value` coerces in the strict order: blank → null;
case-insensitive true/false → boolean; no decimal point and
integer-parseable → integer (so `"007"` becomes `7`); float-parseable →
float; otherwise the stripped string.  Loading the row
`"7,true,,3.14,hello"` under headers `a,b,c,d,e` yields the claimed
typed record (`3.14` is the exact decimal `314·10⁻²`). -/
theorem C2_csv_coercion_order :
    (∀ s, pyStrip s = "" → convert_csv_value (some s) = .null) ∧
    (∀ s, pyLower (pyStrip s) = "true" → convert_csv_value (some s) = .bool true) ∧
    (∀ s, pyLower (pyStrip s) = "false" → convert_csv_value (some s) = .bool false) ∧
    (∀ s n, pyStrip s ≠ "" →
      pyLower (pyStrip s) ≠ "true" → pyLower (pyStrip s) ≠ "false" →
      (pyStrip s).toList.contains '.' = false → pyIntParse (pyStrip s) = some n →
      convert_csv_value (some s) = .int n) ∧
    (∀ s f, pyStrip s ≠ "" →
      pyLower (pyStrip s) ≠ "true" → pyLower (pyStrip s) ≠ "false" →
      ((pyStrip s).toList.contains '.' = false → pyIntParse (pyStrip s) = none) →
      pyFloatParse (pyStrip s) = some f →
      convert_csv_value (some s) = .float f) ∧
    (∀ s, pyStrip s ≠ "" →
      pyLower (pyStrip s) ≠ "true" → pyLower (pyStrip s) ≠ "false" →
      ((pyStrip s).toList.contains '.' = false → pyIntParse (pyStrip s) = none) →
      pyFloatParse (pyStrip s) = none →
      convert_csv_value (some s) = .str (pyStrip s)) ∧
    convert_csv_value (some "007") = .int 7 ∧
    load_csv "a,b,c,d,e\n7,true,,3.14,hello" =
      .ok (.arr [.obj [("a", .int 7), ("b", .bool true), ("c", .null),
        ("d", .float (.finite ⟨314, -2⟩)), ("e", .str "hello")]]) := by
  refine ⟨?_, ?_, ?_, ?_, ?_, ?_, by decide, by decide⟩
  · intro s h
    simp [convert_csv_value, h]
  · intro s h
    have hne : ¬pyStrip s = "" := by
      intro h0
      rw [h0] at h
      exact absurd h (by decide)
    simp [convert_csv_value, hne, h]
  · intro s h
    have hne : ¬pyStrip s = "" := by
      intro h0
      rw [h0] at h
      exact absurd h (by decide)
    simp [convert_csv_value, hne, h]
  · intro s n hne ht hf hdot hint
    have hd : ('.' ∈ (pyStrip s).data) = False := by
      simp only [eq_iff_iff, iff_false]
      simpa using hdot
    simp [convert_csv_value, hne, ht, hf, hd, hint]
  · intro s f hne ht hf hint hfl
    by_cases hd : ('.' ∈ (pyStrip s).data)
    · simp [convert_csv_value, hne, ht, hf, hd, hfl]
    · have hi := hint (by simpa using hd)
      simp [convert_csv_value, hne, ht, hf, hd, hi, hfl]
  · intro s hne ht hf hint hfl
    by_cases hd : ('.' ∈ (pyStrip s).data)
    · simp [convert_csv_value, hne, ht, hf, hd, hfl]
    · have hi := hint (by simpa using hd)
      simp [convert_csv_value, hne, ht, hf, hd, hi, hfl]

end MobilePython

namespace MobilePython

/-- Witness for C2: the coercion cases at concrete cells. -/
theorem C2_csv_coercion_order_witness :
    convert_csv_value (some "  ") = .null ∧
    convert_csv_value (some " TRUE ") = .bool true ∧
    convert_csv_value (some "False") = .bool false ∧
    convert_csv_value (some "007") = .int 7 ∧
    convert_csv_value (some "1e3") = .float (.finite ⟨1, 3⟩) ∧
    convert_csv_value (some "hello") = .str "hello" :=
  ⟨C2_csv_coercion_order.1 "  " (by decide),
   C2_csv_coercion_order.2.1 " TRUE " (by decide),
   C2_csv_coercion_order.2.2.1 "False" (by decide),
   C2_csv_coercion_order.2.2.2.1 "007" 7 (by decide) (by decide) (by decide) (by decide)
     (by decide),
   C2_csv_coercion_order.2.2.2.2.1 "1e3" (.finite ⟨1, 3⟩) (by decide) (by decide) (by decide)
     (fun _ => by decide) (by decide),
   C2_csv_coercion_order.2.2.2.2.2.1 "hello" (by decide) (by decide) (by decide)
     (fun _ => by decide) (by decide)⟩

end MobilePython

namespace MobilePython

/-! ## C6: null handling -/

/-- Schema `{type: string, nullable: true}`. -/
def nullableStringSchema : Schema :=
  .mk (some "string") none none none true none none none none none none none none none

/-- Schema `{type: array, items: {type: string, nullable: true}}`. -/
def arrayOfNullableStringSchema : Schema :=
  .mk (some "array") none none (some nullableStringSchema) false none none none none
    none none none none none

/-- Counterexample to C6: a null at the top level and a null array element
are rejected with a type error even though the enclosing schema sets
`nullable: true`, because the `nullable` check lives only in
`_validate_field` (property values) while the top level and array elements
go through `_validate_object`. -/
theorem C6_counterexample :
    (validate_data .null nullableStringSchema).errors =
      ["root: Expected type string, got NoneType"] ∧
    (validate_data (.arr [.null]) arrayOfNullableStringSchema).errors =
      ["root[0]: Expected type string, got NoneType"] := by
  exact ⟨by decide, by decide⟩

set_option maxHeartbeats 1000000 in
/-- C6 amended: null handling is per-position only for object property
values (`_validate_field`): there a null yields no error exactly when the
property schema has `nullable: true`, one error otherwise, and in both
cases no further checks run.  At the top level and for array elements
(`_validate_object`) `nullable` is ignored: a null is subject to the
ordinary type check (and then only the constraint checks). -/
theorem C6_amended_nullable_only_for_property_values :
    (∀ (s : Schema) (r : VResult) (path : String),
      validate_field .null s r path =
        if s.nullable then r
        else r.add_message (path ++ ": Value cannot be null") .error) ∧
    (∀ (s : Schema) (r : VResult) (path : String),
      validate_object .null s r path =
        if typeCheckFails .null s then
          (match s.type? with
           | some t => r.add_message (typeErrMsg path t .null) .error
           | none => r)
        else validate_constraints .null s r path) := by
  constructor
  · intro s r path
    cases s with
    | mk t? req? props? items? nul fmt? mnl mxl pat mn mx mni mxi en =>
      cases nul <;> (rw [validate_field.eq_def]; rfl)
  · intro s r path
    cases s with
    | mk t? req? props? items? nul fmt? mnl mxl pat mn mx mni mxi en =>
      rw [validate_object.eq_def]
      cases req? <;> cases props? <;> cases items? <;>
        simp [required_step, props_step, items_step, Schema.type?]

end MobilePython

namespace MobilePython

/-! ## C3: one error per violated constraint -/

/-- Spec-side description (for C3) of the constraint errors for one value
at one path: exactly one message per violated constraint, in the order
the source checks them. -/
def specConstraintMessages (value : JValue) (s : Schema) (path : String) : List String :=
  (match value with
   | .str str =>
     (match s.minLength? with
      | some n =>
        if str.length < n then [path ++ ": String too short (min: " ++ toString n ++ ")"]
        else []
      | none => []) ++
     (match s.maxLength? with
      | some n =>
        if str.length > n then [path ++ ": String too long (max: " ++ toString n ++ ")"]
        else []
      | none => []) ++
     (match s.pattern? with
      | some p =>
        if !p str then [path ++ ": String doesn" ++ sq ++ "t match pattern"]
        else []
      | none => [])
   | _ => []) ++
  (match value.numVal with
   | some x =>
     (match s.minimum? with
      | some m =>
        if PyFloat.lt x (.finite ⟨m, 0⟩) then
          [path ++ ": Value too small (min: " ++ toString m ++ ")"]
        else []
      | none => []) ++
     (match s.maximum? with
      | some m =>
        if PyFloat.lt (.finite ⟨m, 0⟩) x then
          [path ++ ": Value too large (max: " ++ toString m ++ ")"]
        else []
      | none => [])
   | none => []) ++
  (match value with
   | .arr xs =>
     (match s.minItems? with
      | some n =>
        if xs.length < n then [path ++ ": Too few items (min: " ++ toString n ++ ")"]
        else []
      | none => []) ++
     (match s.maxItems? with
      | some n =>
        if xs.length > n then [path ++ ": Too many items (max: " ++ toString n ++ ")"]
        else []
      | none => [])
   | _ => []) ++
  (match s.enum? with
   | some es =>
     if !es.isEmpty && !(es.any fun e => pyEq value e) then
       [path ++ ": Value must be one of " ++ pyRepr (.arr es)]
     else []
   | none => [])

theorem validate_constraints_spec (value : JValue) (s : Schema) (r : VResult) (path : String) :
    validate_constraints value s r path =
      ⟨r.is_valid && (specConstraintMessages value s path).isEmpty,
       r.errors ++ specConstraintMessages value s path,
       r.warnings, r.info⟩ := by
  cases value <;>
    simp only [validate_constraints, specConstraintMessages, JValue.numVal] <;>
    (repeat' split) <;>
    simp_all [VResult.add_message]

/-- Schema with property `arr : {type: array, items: {type: string},
minItems: 2}`. -/
def arrMinItemsSchema : Schema :=
  .mk none none
    (some [("arr", .mk (some "array") none none
      (some (.mk (some "string") none none none false none none none none none none none
        none none))
      false none none none none none none (some 2) none none)])
    none false none none none none none none none none none

/-- Counterexample to C3: validating `{arr: []}` against a property schema
`{type: array, items: {type: string}, minItems: 2}` reports the violated
`minItems` constraint twice at the same path — once in `_validate_field`
and once more when it recurses into `_validate_object` with the same value
and schema — and the messages carry the bound and path but not the actual
value. -/
theorem C3_counterexample :
    (validate_data (.obj [("arr", .arr [])]) arrMinItemsSchema).errors =
      ["arr: Too few items (min: 2)", "arr: Too few items (min: 2)"] := by decide

/-- C3 amended: within one `_validate_constraints` pass each violated
constraint appends exactly one error containing the concrete bound and
the path (not the actual value); however, an object or array field whose
property schema has `properties`/`items` is recursed into with the same
value and schema, so its constraint set is evaluated a second time and
its violations are reported twice, as in the concrete `{arr: []}` run. -/
theorem C3_amended_one_error_per_constraint_per_pass :
    (∀ (value : JValue) (s : Schema) (r : VResult) (path : String),
      validate_constraints value s r path =
        ⟨r.is_valid && (specConstraintMessages value s path).isEmpty,
         r.errors ++ specConstraintMessages value s path,
         r.warnings, r.info⟩) ∧
    (validate_data (.obj [("arr", .arr [])]) arrMinItemsSchema).errors =
      ["arr: Too few items (min: 2)", "arr: Too few items (min: 2)"] ∧
    specConstraintMessages (.arr []) (.mk (some "array") none none
      (some (.mk (some "string") none none none false none none none none none none none
        none none))
      false none none none none none none (some 2) none none) "arr" =
      ["arr: Too few items (min: 2)"] :=
  ⟨validate_constraints_spec, by decide, by decide⟩

end MobilePython

namespace MobilePython

/-! ## C4: format validation -/

/-- The spec example schema
`{properties: {username: {type: string, format: email}}}`. -/
def usernameEmailSchema : Schema :=
  .mk none none
    (some [("username", .mk (some "string") none none none false (some "email") none none
      none none none none none none)])
    none false none none none none none none none none none

/-- The same property schema without the `type` key. -/
def usernameEmailNoTypeSchema : Schema :=
  .mk none none
    (some [("username", .mk none none none none false (some "email") none none
      none none none none none none)])
    none false none none none none none none none none none

/-- Counterexample to C4: a non-string field value whose property schema
names a registered format but declares no type produces a format error —
there is no type-mismatch error to suppress it, yet the claim says a
non-string value yields no format error. -/
theorem C4_counterexample :
    validate_data (.obj [("username", .int 42)]) usernameEmailNoTypeSchema =
      ⟨false, ["username: Invalid email format"], [], []⟩ := by decide

/-- C4 amended: the registered checker is invoked for any non-null field
value once the type check passes or no type is declared; every built-in
checker returns `false` on non-strings, so a non-string with a declared
`type: string` gets only a type error (no format error), while without a
declared type it gets exactly one format error.  The two concrete
examples of the claim hold: `not-an-email` yields exactly one error
naming the path and the format, and `a@b.co` yields zero errors. -/
theorem C4_amended_format_validation :
    (∀ (name : String) (f : JValue → Bool), format_validators name = some f →
      ∀ v : JValue, v.isStr = false → f v = false) ∧
    validate_data (.obj [("username", .str "not-an-email")]) usernameEmailSchema =
      ⟨false, ["username: Invalid email format"], [], []⟩ ∧
    validate_data (.obj [("username", .str "a@b.co")]) usernameEmailSchema =
      VResult.fresh ∧
    validate_data (.obj [("username", .int 42)]) usernameEmailSchema =
      ⟨false, ["username: Expected type string, got int"], [], []⟩ := by
  refine ⟨?_, by decide, by decide, by decide⟩
  intro name f h v hv
  have hf : f = validate_email ∨ f = validate_phone ∨ f = validate_url ∨
      f = validate_date ∨ f = validate_datetime ∨ f = validate_uuid ∨
      f = validate_password ∨ f = validate_username := by
    unfold format_validators at h
    split at h <;> simp_all
  cases v <;> simp_all [JValue.isStr] <;>
    rcases hf with rfl | rfl | rfl | rfl | rfl | rfl | rfl | rfl <;> rfl

/-- Witness for C4: the universally quantified conjunct applied at the
registered `email` checker and a non-string value. -/
theorem C4_amended_format_validation_witness :
    validate_email (.int 3) = false :=
  C4_amended_format_validation.1 "email" validate_email rfl (.int 3) rfl

end MobilePython

namespace MobilePython

/-! ## C5: the validity/errors invariant -/

/-- The `ValidationResult` invariant: invalid exactly when an error has
been recorded. -/
def VResult.inv (r : VResult) : Prop :=
  r.is_valid = false ↔ r.errors ≠ []

theorem add_message_inv (r : VResult) (m : String) (l : VLevel) (h : r.inv) :
    (r.add_message m l).inv := by
  cases l <;> simp_all [VResult.inv, VResult.add_message]

theorem mk_append_inv (r : VResult) (msgs : List String) (h : r.inv) :
    VResult.inv ⟨r.is_valid && msgs.isEmpty, r.errors ++ msgs, r.warnings, r.info⟩ := by
  cases msgs with
  | nil => simpa [VResult.inv] using h
  | cons m ms => simp [VResult.inv]

theorem check_required_inv (flds : List (String × JValue)) (reqs : List String)
    (r : VResult) (path : String) (h : r.inv) : (check_required flds reqs r path).inv := by
  rw [check_required_spec]
  rcases hfe : reqs.filter (fun f => (lookupField flds f).isNone) with _ | ⟨m, ms⟩
  · simpa [VResult.inv, hfe] using h
  · simp [VResult.inv, hfe]

theorem required_step_inv (data : JValue) (req? : Option (List String)) (r : VResult)
    (path : String) (h : r.inv) : (required_step data req? r path).inv := by
  cases req? with
  | none => simpa [required_step] using h
  | some reqs =>
    cases data <;> simp only [required_step] <;>
      first
        | exact check_required_inv _ _ _ _ h
        | exact h

theorem validate_constraints_inv (value : JValue) (s : Schema) (r : VResult)
    (path : String) (h : r.inv) : (validate_constraints value s r path).inv := by
  rw [validate_constraints_spec]
  exact mk_append_inv r _ h

theorem format_step_inv (value : JValue) (fmt? : Option String) (r : VResult)
    (path : String) (h : r.inv) : (format_step value fmt? r path).inv := by
  unfold format_step
  repeat' split
  all_goals first
    | exact add_message_inv _ _ _ h
    | exact h

theorem foldl_inv {β : Type} (g : VResult → β → VResult) (l : List β) (r : VResult)
    (hg : ∀ acc x, acc.inv → (g acc x).inv) (h : r.inv) : (l.foldl g r).inv := by
  induction l generalizing r with
  | nil => exact h
  | cons x xs ih => exact ih (g r x) (hg r x h)

theorem validate_props_inv (flds : List (String × JValue)) (props : List (String × Schema))
    (r : VResult) (path : String)
    (H : ∀ p ∈ props, ∀ (v : JValue) (r' : VResult) (path' : String),
      r'.inv → (validate_field v p.2 r' path').inv)
    (h : r.inv) : (validate_props flds props r path).inv := by
  induction props generalizing r with
  | nil => simpa [validate_props] using h
  | cons p rest ih =>
    cases p with
    | mk f fs =>
      rw [validate_props]
      have hf := H (f, fs) (List.mem_cons_self _ _)
      have hH : ∀ q ∈ rest, ∀ (v : JValue) (r' : VResult) (path' : String),
          r'.inv → (validate_field v q.2 r' path').inv :=
        fun q hq => H q (List.mem_cons_of_mem _ hq)
      have hr' : VResult.inv
          (match lookupField flds f with
           | some v => validate_field v fs r (if path = "root" then f else path ++ "." ++ f)
           | none =>
             if fs.requiredTruthy then
               r.add_message ((if path = "root" then f else path ++ "." ++ f) ++
                 ": Required field is missing") .error
             else r) := by
        cases hlk : lookupField flds f with
        | some v => simpa using hf v r _ h
        | none =>
          simp only []
          split
          · exact add_message_inv _ _ _ h
          · exact h
      exact ih _ hH hr' 

theorem items_step_inv (data : JValue) (items? : Option Schema) (r : VResult)
    (path : String)
    (H : ∀ isc, items? = some isc → ∀ (x : JValue) (r' : VResult) (path' : String),
      r'.inv → (validate_object x isc r' path').inv)
    (h : r.inv) : (items_step data items? r path).inv := by
  cases items? with
  | none => simpa [items_step] using h
  | some isc =>
    cases data <;> simp only [items_step] <;>
      first
        | exact foldl_inv _ _ r (fun acc ix hacc => H isc rfl ix.2 acc _ hacc) h
        | exact h

theorem props_step_inv (data : JValue) (props? : Option (List (String × Schema)))
    (r : VResult) (path : String)
    (H : ∀ props, props? = some props → ∀ p ∈ props,
      ∀ (v : JValue) (r' : VResult) (path' : String),
        r'.inv → (validate_field v p.2 r' path').inv)
    (h : r.inv) : (props_step data props? r path).inv := by
  cases props? with
  | none => simpa [props_step] using h
  | some props =>
    cases data <;> simp only [props_step] <;>
      first
        | exact validate_props_inv _ _ _ _ (H props rfl) h
        | exact h

end MobilePython

namespace MobilePython

/-- Unfolding equation for `validate_object` (the `let`-free reading of
its body). -/
theorem validate_object_unfold (data : JValue) (t? : Option String)
    (req? : Option (List String)) (props? : Option (List (String × Schema)))
    (items? : Option Schema) (nul : Bool) (fmt? : Option String)
    (mnl mxl : Option ℕ) (pat : Option (String → Bool)) (mn mx : Option ℤ)
    (mni mxi : Option ℕ) (en : Option (List JValue)) (r : VResult) (path : String) :
    validate_object data (.mk t? req? props? items? nul fmt? mnl mxl pat mn mx mni mxi en)
        r path =
      (if typeCheckFails data
          (.mk t? req? props? items? nul fmt? mnl mxl pat mn mx mni mxi en) then
        match t? with
        | some t => r.add_message (typeErrMsg path t data) .error
        | none => r
      else
        validate_constraints data
          (.mk t? req? props? items? nul fmt? mnl mxl pat mn mx mni mxi en)
          (items_step data items?
            (props_step data props? (required_step data req? r path) path) path) path) := by
  rw [validate_object.eq_def]

/-- Unfolding equation for `validate_field` (the `let`-free reading of
its body; the shared intermediate result is written out twice). -/
theorem validate_field_unfold (value : JValue) (t? : Option String)
    (req? : Option (List String)) (props? : Option (List (String × Schema)))
    (items? : Option Schema) (nul : Bool) (fmt? : Option String)
    (mnl mxl : Option ℕ) (pat : Option (String → Bool)) (mn mx : Option ℤ)
    (mni mxi : Option ℕ) (en : Option (List JValue)) (r : VResult) (path : String) :
    validate_field value (.mk t? req? props? items? nul fmt? mnl mxl pat mn mx mni mxi en)
        r path =
      (match value with
       | .null =>
         if !nul then r.add_message (path ++ ": Value cannot be null") .error
         else r
       | _ =>
         if typeCheckFails value
             (.mk t? req? props? items? nul fmt? mnl mxl pat mn mx mni mxi en) then
           match t? with
           | some t => r.add_message (typeErrMsg path t value) .error
           | none => r
         else
           if (match value with
               | .obj _ => props?.isSome
               | .arr _ => items?.isSome
               | _ => false) then
             if typeCheckFails value
                 (.mk t? req? props? items? nul fmt? mnl mxl pat mn mx mni mxi en) then
               match t? with
               | some t =>
                 (validate_constraints value
                   (.mk t? req? props? items? nul fmt? mnl mxl pat mn mx mni mxi en)
                   (format_step value fmt? r path) path).add_message
                     (typeErrMsg path t value) .error
               | none =>
                 validate_constraints value
                   (.mk t? req? props? items? nul fmt? mnl mxl pat mn mx mni mxi en)
                   (format_step value fmt? r path) path
             else
               validate_constraints value
                 (.mk t? req? props? items? nul fmt? mnl mxl pat mn mx mni mxi en)
                 (items_step value items?
                   (props_step value props?
                     (required_step value req?
                       (validate_constraints value
                         (.mk t? req? props? items? nul fmt? mnl mxl pat mn mx mni mxi en)
                         (format_step value fmt? r path) path) path) path) path) path
           else
             validate_constraints value
               (.mk t? req? props? items? nul fmt? mnl mxl pat mn mx mni mxi en)
               (format_step value fmt? r path) path) := by
  rw [validate_field.eq_def]

set_option maxHeartbeats 2000000 in
theorem validator_inv : ∀ (n : ℕ) (s : Schema), sizeOf s ≤ n →
    (∀ (data : JValue) (r : VResult) (path : String), r.inv →
      (validate_object data s r path).inv) ∧
    (∀ (value : JValue) (r : VResult) (path : String), r.inv →
      (validate_field value s r path).inv) := by
  intro n
  induction n with
  | zero =>
    intro s h
    exact absurd h (by cases s; simp)
  | succ n ih =>
    intro s hs
    obtain ⟨t?, req?, props?, items?, nul, fmt?, mnl, mxl, pat, mn, mx, mni, mxi, en⟩ := s
    have hprops : ∀ props, props? = some props → ∀ p ∈ props, sizeOf p.2 ≤ n := by
      intro props hp p hmem
      subst hp
      have h1 := List.sizeOf_lt_of_mem hmem
      have h2 : sizeOf p.2 ≤ sizeOf p := by cases p; simp_arith
      simp at hs
      omega
    have hitems : ∀ isc, items? = some isc → sizeOf isc ≤ n := by
      intro isc hi
      subst hi
      simp at hs
      omega
    have hsteps : ∀ (d : JValue) (r0 : VResult) (p0 : String), r0.inv →
        (validate_constraints d
          (Schema.mk t? req? props? items? nul fmt? mnl mxl pat mn mx mni mxi en)
          (items_step d items?
            (props_step d props? (required_step d req? r0 p0) p0) p0) p0).inv := by
      intro d r0 p0 h0
      refine validate_constraints_inv _ _ _ _ ?_
      refine items_step_inv _ _ _ _ (fun isc hisc x r' path' hr' =>
        (ih isc (hitems isc hisc)).1 x r' path' hr') ?_
      refine props_step_inv _ _ _ _ (fun props hp p hmem v r' path' hr' =>
        (ih p.2 (hprops props hp p hmem)).2 v r' path' hr') ?_
      exact required_step_inv _ _ _ _ h0
    constructor
    · intro data r path h
      rw [validate_object_unfold]
      split
      · split
        · exact add_message_inv _ _ _ h
        · exact h
      · exact hsteps _ _ _ h
    · intro value r path h
      rw [validate_field_unfold]
      split
      · split
        · exact add_message_inv _ _ _ h
        · exact h
      · split
        · split
          · exact add_message_inv _ _ _ h
          · exact h
        · split
          · exact hsteps _ _ _
              (validate_constraints_inv _ _ _ _ (format_step_inv _ _ _ _ h))
          · exact validate_constraints_inv _ _ _ _ (format_step_inv _ _ _ _ h)

end MobilePython

namespace MobilePython

/-- C5: the `ValidationResult` invariant — validity is false exactly when
the error list is non-empty; it is preserved by every `add_message`
(warnings and info never affect validity), and it holds for every result
returned by `validate_data` and by `validate_with_schema`. -/
theorem C5_validity_iff_errors :
    (∀ (r : VResult) (m : String) (l : VLevel),
      (r.is_valid = false ↔ r.errors ≠ []) →
      ((r.add_message m l).is_valid = false ↔ (r.add_message m l).errors ≠ [])) ∧
    (∀ (data : JValue) (s : Schema),
      ((validate_data data s).is_valid = false ↔ (validate_data data s).errors ≠ [])) ∧
    (∀ (dir : SchemaDir) (cache : List (String × SDoc)) (data : JValue) (name : String),
      ((validate_with_schema dir cache data name).1.is_valid = false ↔
        (validate_with_schema dir cache data name).1.errors ≠ [])) := by
  have hvd : ∀ (data : JValue) (s : Schema),
      ((validate_data data s).is_valid = false ↔ (validate_data data s).errors ≠ []) :=
    fun data s =>
      (validator_inv (sizeOf s) s le_rfl).1 data VResult.fresh "root"
        (by simp [VResult.inv, VResult.fresh])
  refine ⟨fun r m l h => add_message_inv r m l h, hvd, fun dir cache data name => ?_⟩
  unfold validate_with_schema
  split
  · split
    · exact hvd _ _
    · simp [schemaNotFound, VResult.add_message]
  · simp [schemaNotFound, VResult.add_message]

/-- Witness for C5: the invariant applied at a concrete warning append
and a concrete validation run. -/
theorem C5_validity_iff_errors_witness :
    ((VResult.fresh.add_message "note" .warning).is_valid = false ↔
      (VResult.fresh.add_message "note" .warning).errors ≠ []) ∧
    ((validate_data (.obj []) requiredTripleSchema).is_valid = false ↔
      (validate_data (.obj []) requiredTripleSchema).errors ≠ []) :=
  ⟨C5_validity_iff_errors.1 VResult.fresh "note" .warning (by decide),
   C5_validity_iff_errors.2.1 (.obj []) requiredTripleSchema⟩

end MobilePython

namespace MobilePython

/-! ## C9: schema loading and validate_with_schema -/

/-- Counterexample to C9: a schema file that exists and parses to the
empty (falsy) document `{}` makes `validate_with_schema` return the
synthetic "not found" result instead of the result of validating against
the loaded document (which would be valid); and for a name already in the
schema cache, `load_schema` returns the cached document even when the
file is absent, not `None`. -/
theorem C9_counterexample :
    (validate_with_schema
        (fun n => if n = "user" then some (.ok ⟨false, Schema.empty⟩) else none)
        [] (.int 5) "user").1 = schemaNotFound "user" ∧
    validate_data (.int 5) Schema.empty = VResult.fresh ∧
    schemaNotFound "user" ≠ VResult.fresh ∧
    ((load_schema (fun _ => none) [("user", ⟨true, Schema.empty⟩)] "user").1).isSome = true := by
  exact ⟨by decide, by decide, by decide, by decide⟩

/-- C9 amended: for a name not in the schema cache whose file is absent,
`load_schema` returns `None` with the cache unchanged, and
`validate_with_schema` returns (never raises) an invalid result carrying
exactly one descriptive error; whenever the name resolves (from cache or
file) to a truthy — non-empty — document, `validate_with_schema` returns
the result of validating the value against that document. -/
theorem C9_amended_schema_resolution :
    (∀ (dir : SchemaDir) (cache : List (String × SDoc)) (name : String),
      cache.lookup name = none → dir name = none →
      load_schema dir cache name = (none, cache)) ∧
    (∀ (dir : SchemaDir) (cache : List (String × SDoc)) (data : JValue) (name : String),
      cache.lookup name = none → dir name = none →
      validate_with_schema dir cache data name = (schemaNotFound name, cache)) ∧
    (∀ name, (schemaNotFound name).is_valid = false ∧
      (schemaNotFound name).errors = ["Schema " ++ sq ++ name ++ sq ++ " not found"] ∧
      (schemaNotFound name).warnings = [] ∧ (schemaNotFound name).info = []) ∧
    (∀ (dir : SchemaDir) (cache cache1 : List (String × SDoc)) (data : JValue)
        (name : String) (d : SDoc),
      load_schema dir cache name = (some d, cache1) → d.truthy = true →
      validate_with_schema dir cache data name = (validate_data data d.schema, cache1)) := by
  refine ⟨?_, ?_, ?_, ?_⟩
  · intro dir cache name h1 h2
    simp [load_schema, h1, h2]
  · intro dir cache data name h1 h2
    simp [validate_with_schema, load_schema, h1, h2]
  · intro name
    refine ⟨rfl, ?_, rfl, rfl⟩
    simp [schemaNotFound, VResult.add_message]
  · intro dir cache cache1 data name d hload htruthy
    simp [validate_with_schema, hload, htruthy]

/-- Witness for C9: the amended clauses at concrete directories. -/
theorem C9_amended_schema_resolution_witness :
    load_schema (fun _ => none) [] "user" = (none, []) ∧
    validate_with_schema (fun _ => none) [] (.int 5) "user" = (schemaNotFound "user", []) ∧
    validate_with_schema
        (fun n => if n = "user" then some (.ok ⟨true, requiredTripleSchema⟩) else none)
        [] (.obj []) "user" =
      (validate_data (.obj []) requiredTripleSchema,
       [("user", ⟨true, requiredTripleSchema⟩)]) :=
  ⟨C9_amended_schema_resolution.1 _ [] "user" rfl rfl,
   C9_amended_schema_resolution.2.1 _ [] (.int 5) "user" rfl rfl,
   C9_amended_schema_resolution.2.2.2 _ [] [("user", ⟨true, requiredTripleSchema⟩)]
     (.obj []) "user" ⟨true, requiredTripleSchema⟩ rfl rfl⟩

end MobilePython

namespace MobilePython

/-! ## C1: the load/cache policy -/

theorem lookup_setCache (c : List (String × DataSource)) (k : String) (v : DataSource) :
    (setCache c k v).lookup k = some v := by
  induction c with
  | nil => simp [setCache]
  | cons p rest ih =>
    cases p with
    | mk k0 v0 =>
      by_cases h : k0 = k
      · simp [setCache, h, List.lookup]
      · have h2 : (k == k0) = false := beq_eq_false_iff_ne.mpr fun e => h e.symm
        simp [setCache, h, List.lookup, ih, h2]

/-- C1: the cache policy of `load_data` for a file that exists with a
supported extension.  (A) With `force_reload` unset, a cache entry with
caching enabled whose recorded timestamp is not older than the on-disk
mtime is returned as-is: no loader runs and the cache is unchanged.
(B) Otherwise — forced reload, no entry, caching disabled, or a newer
mtime — the loader for the extension runs and, on success, the entry's
value and timestamp are replaced together.  (C) Hence an immediate second
load with unchanged mtime returns the just-cached value without invoking
any loader, and (D) a load after the mtime advances re-parses the new
content and re-stamps the entry. -/
theorem C1_cache_policy (ctx : DMCtx) (cache : List (String × DataSource))
    (filename : String) (file : File) (loader : String → Except String JValue)
    (hfile : ctx.fs (ctx.dataDir ++ "/" ++ filename) = some file)
    (hfmt : supported_formats ctx (pathSuffix (ctx.dataDir ++ "/" ++ filename)) = some loader) :
    (∀ (src : DataSource),
      cache.lookup (ctx.dataDir ++ "/" ++ filename) = some src →
      src.cache_enabled = true →
      is_file_modified ctx.fs (ctx.dataDir ++ "/" ++ filename) src.last_modified = false →
      load_data ctx cache filename false = (.ok src.data, cache, false)) ∧
    (∀ (force : Bool) (d : JValue),
      loader file.content = .ok d →
      (force = true ∨ cache.lookup (ctx.dataDir ++ "/" ++ filename) = none ∨
        (∃ src, cache.lookup (ctx.dataDir ++ "/" ++ filename) = some src ∧
          (src.cache_enabled = false ∨
            is_file_modified ctx.fs (ctx.dataDir ++ "/" ++ filename) src.last_modified = true))) →
      load_data ctx cache filename force =
        (.ok d,
         setCache cache (ctx.dataDir ++ "/" ++ filename)
           ⟨ctx.dataDir ++ "/" ++ filename, pathSuffix (ctx.dataDir ++ "/" ++ filename),
            true, some file.mtime, d⟩,
         true)) ∧
    (∀ (d : JValue) (cache1 : List (String × DataSource)),
      load_data ctx cache filename true = (.ok d, cache1, true) →
      load_data ctx cache1 filename false = (.ok d, cache1, false)) ∧
    (∀ (ctx2 : DMCtx) (file2 : File) (d d2 : JValue) (cache1 : List (String × DataSource)),
      ctx2.dataDir = ctx.dataDir →
      ctx2.fs (ctx.dataDir ++ "/" ++ filename) = some file2 →
      file2.mtime > file.mtime →
      supported_formats ctx2 (pathSuffix (ctx.dataDir ++ "/" ++ filename)) = some loader →
      loader file2.content = .ok d2 →
      load_data ctx cache filename true = (.ok d, cache1, true) →
      load_data ctx2 cache1 filename false =
        (.ok d2,
         setCache cache1 (ctx.dataDir ++ "/" ++ filename)
           ⟨ctx.dataDir ++ "/" ++ filename, pathSuffix (ctx.dataDir ++ "/" ++ filename),
            true, some file2.mtime, d2⟩,
         true)) := by
  have hstore : ∀ (c : List (String × DataSource)) (d : JValue),
      loader file.content = .ok d →
      load_and_store c (ctx.dataDir ++ "/" ++ filename)
          (pathSuffix (ctx.dataDir ++ "/" ++ filename)) file loader =
        (.ok d,
         setCache c (ctx.dataDir ++ "/" ++ filename)
           ⟨ctx.dataDir ++ "/" ++ filename, pathSuffix (ctx.dataDir ++ "/" ++ filename),
            true, some file.mtime, d⟩,
         true) := by
    intro c d hld
    simp [load_and_store, hld]
  have hforced : ∀ (d : JValue) (cache1 : List (String × DataSource)),
      load_data ctx cache filename true = (.ok d, cache1, true) →
      loader file.content = .ok d ∧
        cache1 = setCache cache (ctx.dataDir ++ "/" ++ filename)
          ⟨ctx.dataDir ++ "/" ++ filename, pathSuffix (ctx.dataDir ++ "/" ++ filename),
           true, some file.mtime, d⟩ := by
    intro d cache1 hload
    rcases hld : loader file.content with m | d0
    · cases hl : cache.lookup (ctx.dataDir ++ "/" ++ filename) <;>
        simp [load_data, hfile, hfmt, hl, load_and_store, hld] at hload
    · cases hl : cache.lookup (ctx.dataDir ++ "/" ++ filename) <;>
        (simp [load_data, hfile, hfmt, hl, load_and_store, hld] at hload;
         obtain ⟨h1, h2⟩ := hload;
         subst h1;
         exact ⟨rfl, h2.symm⟩)
  refine ⟨?_, ?_, ?_, ?_⟩
  · intro src hsrc hen hmod
    simp [load_data, hfile, hfmt, hsrc, hen, hmod]
  · intro force d hld hcase
    rcases hcase with hF | hnone | ⟨src, hsrc, hbad⟩
    · subst hF
      cases hl : cache.lookup (ctx.dataDir ++ "/" ++ filename) <;>
        simp [load_data, hfile, hfmt, hl, hstore _ _ hld]
    · simp [load_data, hfile, hfmt, hnone, hstore _ _ hld]
    · rcases hbad with hce | hmod
      · simp [load_data, hfile, hfmt, hsrc, hce, hstore _ _ hld]
      · simp [load_data, hfile, hfmt, hsrc, hmod, hstore _ _ hld]
  · intro d cache1 hload
    obtain ⟨hld, hc1⟩ := hforced d cache1 hload
    subst hc1
    simp [load_data, hfile, hfmt, lookup_setCache, is_file_modified]
  · intro ctx2 file2 d d2 cache1 hdir hfile2 hmt hfmt2 hld2 hload
    obtain ⟨hld, hc1⟩ := hforced d cache1 hload
    subst hc1
    simp [load_data, hdir, hfile2, hfmt2, lookup_setCache, is_file_modified, hmt,
      load_and_store, hld2]

end MobilePython

namespace MobilePython

/-- Concrete context for the C1 witness: one CSV file at mtime 5. -/
def c1Ctx : DMCtx :=
  ⟨"td",
   fun p => if p = "td/devices.csv" then some ⟨5, "platform\nAndroid"⟩ else none,
   fun _ => .ok .null, fun _ => .ok .null⟩

/-- The same file after an edit: newer mtime, new content. -/
def c1Ctx2 : DMCtx :=
  ⟨"td",
   fun p => if p = "td/devices.csv" then some ⟨9, "platform\niOS"⟩ else none,
   fun _ => .ok .null, fun _ => .ok .null⟩

/-- A pre-existing fresh cache entry for the C1 witness. -/
def c1Entry : DataSource :=
  ⟨"td/devices.csv", ".csv", true, some 5, .str "cached"⟩

/-- Witness for C1: all four cache-policy clauses at the concrete
context. -/
theorem C1_cache_policy_witness :
    load_data c1Ctx [("td/devices.csv", c1Entry)] "devices.csv" false =
      (.ok (.str "cached"), [("td/devices.csv", c1Entry)], false) ∧
    load_data c1Ctx [] "devices.csv" false =
      (.ok (.arr [.obj [("platform", .str "Android")]]),
       setCache [] ("td" ++ "/" ++ "devices.csv")
         ⟨"td" ++ "/" ++ "devices.csv", pathSuffix ("td" ++ "/" ++ "devices.csv"),
          true, some 5, .arr [.obj [("platform", .str "Android")]]⟩,
       true) ∧
    load_data c1Ctx
        (setCache [] ("td" ++ "/" ++ "devices.csv")
          ⟨"td" ++ "/" ++ "devices.csv", pathSuffix ("td" ++ "/" ++ "devices.csv"),
           true, some 5, .arr [.obj [("platform", .str "Android")]]⟩)
        "devices.csv" false =
      (.ok (.arr [.obj [("platform", .str "Android")]]),
       setCache [] ("td" ++ "/" ++ "devices.csv")
         ⟨"td" ++ "/" ++ "devices.csv", pathSuffix ("td" ++ "/" ++ "devices.csv"),
          true, some 5, .arr [.obj [("platform", .str "Android")]]⟩,
       false) ∧
    load_data c1Ctx2
        (setCache [] ("td" ++ "/" ++ "devices.csv")
          ⟨"td" ++ "/" ++ "devices.csv", pathSuffix ("td" ++ "/" ++ "devices.csv"),
           true, some 5, .arr [.obj [("platform", .str "Android")]]⟩)
        "devices.csv" false =
      (.ok (.arr [.obj [("platform", .str "iOS")]]),
       setCache
         (setCache [] ("td" ++ "/" ++ "devices.csv")
           ⟨"td" ++ "/" ++ "devices.csv", pathSuffix ("td" ++ "/" ++ "devices.csv"),
            true, some 5, .arr [.obj [("platform", .str "Android")]]⟩)
         ("td" ++ "/" ++ "devices.csv")
         ⟨"td" ++ "/" ++ "devices.csv", pathSuffix ("td" ++ "/" ++ "devices.csv"),
          true, some 9, .arr [.obj [("platform", .str "iOS")]]⟩,
       true) := by
  have h := C1_cache_policy c1Ctx [("td/devices.csv", c1Entry)] "devices.csv"
    ⟨5, "platform\nAndroid"⟩ load_csv (by decide) rfl
  have h0 := C1_cache_policy c1Ctx [] "devices.csv"
    ⟨5, "platform\nAndroid"⟩ load_csv (by decide) rfl
  refine ⟨h.1 c1Entry (by decide) rfl (by decide), ?_, ?_, ?_⟩
  · exact h0.2.1 false (.arr [.obj [("platform", .str "Android")]]) (by decide)
      (Or.inr (Or.inl (by decide)))
  · exact h0.2.2.1 (.arr [.obj [("platform", .str "Android")]]) _ (by decide)
  · exact h0.2.2.2 c1Ctx2 ⟨9, "platform\niOS"⟩ (.arr [.obj [("platform", .str "Android")]])
      (.arr [.obj [("platform", .str "iOS")]]) _ rfl (by decide) (by decide) rfl (by decide)
      (by decide)

end MobilePython

namespace MobilePython

/-! ## C8: get_device_data filtering -/

/-- The examined field of a row is a string or absent (and the row is a
dict): exactly the rows on which `d.get(key, "").lower()` cannot raise. -/
def rowFieldStringy (row : JValue) (key : String) : Bool :=
  match row with
  | .obj flds =>
    match lookupField flds key with
    | some (.str _) => true
    | some _ => false
    | none => true
  | _ => false

/-- Spec-side filter predicate: the field (defaulting to the empty string
when absent) equals the argument case-insensitively. -/
def rowMatches (row : JValue) (key p : String) : Bool :=
  match row with
  | .obj flds =>
    match lookupField flds key with
    | some (.str s0) => pyLower s0 == pyLower p
    | _ => "" == pyLower p
  | _ => false

/-- One optional filter: applied only when the argument is truthy. -/
def passes (row : JValue) (key : String) (filt : Option String) : Bool :=
  match filt with
  | none => true
  | some p => if p = "" then true else rowMatches row key p

theorem rowFieldLower_of_stringy (row : JValue) (key : String)
    (h : rowFieldStringy row key = true) :
    ∃ s0, rowFieldLower row key = .ok s0 ∧
      ∀ p, rowMatches row key p = (s0 == pyLower p) := by
  cases row <;> simp [rowFieldStringy] at h
  rename_i flds
  cases hlk : lookupField flds key with
  | none => exact ⟨"", by simp [rowFieldLower, hlk], fun p => by simp [rowMatches, hlk]⟩
  | some v =>
    cases v <;> simp [hlk] at h
    rename_i s0
    exact ⟨pyLower s0, by simp [rowFieldLower, hlk], fun p => by simp [rowMatches, hlk]⟩

theorem filter_rows_ok (rows : List JValue) (key p : String)
    (h : ∀ row ∈ rows, rowFieldStringy row key = true) :
    filter_rows rows key p = .ok (rows.filter fun row => rowMatches row key p) := by
  induction rows with
  | nil => simp [filter_rows]
  | cons row rest ih =>
    obtain ⟨s0, h1, h2⟩ := rowFieldLower_of_stringy row key (h row (List.mem_cons_self _ _))
    have ihr := ih fun q hq => h q (List.mem_cons_of_mem _ hq)
    simp only [filter_rows, h1, ihr, Except.map, bind, Except.bind, List.filter_cons, h2 p]
    cases hb : (s0 == pyLower p) <;> simp [hb, pure, Except.pure]

theorem applyFilter_ok (rows : List JValue) (key : String) (filt : Option String)
    (h : ∀ row ∈ rows, rowFieldStringy row key = true) :
    applyFilter (.arr rows) key filt =
      .ok (.arr (rows.filter fun row => passes row key filt)) := by
  cases filt with
  | none => simp [applyFilter, passes]
  | some p =>
    by_cases hp : p = ""
    · simp [applyFilter, passes, hp]
    · simp [applyFilter, passes, hp, filter_devices, filter_rows_ok rows key p h,
        Except.map]

/-- Concrete context for the C8 counterexample: a CSV whose second row has
a numeric platform cell. -/
def c8Ctx : DMCtx :=
  ⟨"td",
   fun p => if p = "td/devices.csv" then some ⟨1, "platform\nAndroid\n5"⟩ else none,
   fun _ => .ok .null, fun _ => .ok .null⟩

/-- Counterexample to C8: `devices.csv` loads to rows
`[{platform: "Android"}, {platform: 5}]`; filtering by platform
`"Android"` hits `AttributeError` on `5 .lower()`, is caught, and the call
returns the empty list — not the matching row `{platform: "Android"}`
that the claim promises. -/
theorem C8_counterexample :
    (get_device_data c8Ctx [] (some "Android") none).1 = .arr [] ∧
    (load_data c8Ctx [] "devices.csv" false).1 =
      .ok (.arr [.obj [("platform", .str "Android")], .obj [("platform", .int 5)]]) ∧
    (.arr [] : JValue) ≠ .arr [.obj [("platform", .str "Android")]] := by
  exact ⟨by decide, by decide, by decide⟩

/-- C8 amended: when `devices.csv` loads to a list of dict rows whose
`platform` and `test_priority` fields are strings (or absent, defaulting
to the empty string), `get_device_data` returns exactly the rows matching
the truthy filters case-insensitively; any load failure yields the empty
list, and in every case the call returns normally with the post-load
cache.  A non-string examined field makes the whole call return the empty
list, as in the counterexample. -/
theorem C8_amended_device_filtering :
    (∀ (ctx : DMCtx) (cache cache1 : List (String × DataSource))
        (platform priority : Option String) (rows : List JValue) (b : Bool),
      load_data ctx cache "devices.csv" false = (.ok (.arr rows), cache1, b) →
      (∀ row ∈ rows, rowFieldStringy row "platform" = true ∧
        rowFieldStringy row "test_priority" = true) →
      get_device_data ctx cache platform priority =
        (.arr (rows.filter fun row =>
          passes row "platform" platform && passes row "test_priority" priority),
         cache1)) ∧
    (∀ (ctx : DMCtx) (cache cache1 : List (String × DataSource))
        (platform priority : Option String) (e : LoadErr) (b : Bool),
      load_data ctx cache "devices.csv" false = (.error e, cache1, b) →
      get_device_data ctx cache platform priority = (.arr [], cache1)) := by
  constructor
  · intro ctx cache cache1 platform priority rows b hload hok
    have h1 := applyFilter_ok rows "platform" platform fun row hr => (hok row hr).1
    have h2 := applyFilter_ok (rows.filter fun row => passes row "platform" platform)
      "test_priority" priority
      (fun row hr => (hok row (List.mem_of_mem_filter hr)).2)
    simp [get_device_data, hload, h1, h2, bind, Except.bind, List.filter_filter,
      Bool.and_comm]
  · intro ctx cache cache1 platform priority e b hload
    simp [get_device_data, hload]

/-- Concrete context for the C8 witness: well-formed string cells. -/
def c8wCtx : DMCtx :=
  ⟨"td",
   fun p => if p = "td/devices.csv" then
     some ⟨1, "platform,test_priority\nAndroid,high\niOS,low\nandroid,HIGH"⟩ else none,
   fun _ => .ok .null, fun _ => .ok .null⟩

/-- Witness for C8: the amended clauses at concrete contexts. -/
theorem C8_amended_device_filtering_witness :
    get_device_data c8wCtx [] (some "Android") (some "high") =
      (.arr ([.obj [("platform", .str "Android"), ("test_priority", .str "high")],
              .obj [("platform", .str "iOS"), ("test_priority", .str "low")],
              .obj [("platform", .str "android"), ("test_priority", .str "HIGH")]].filter
        fun row => passes row "platform" (some "Android") &&
          passes row "test_priority" (some "high")),
       setCache [] "td/devices.csv"
         ⟨"td/devices.csv", ".csv", true, some 1,
          .arr [.obj [("platform", .str "Android"), ("test_priority", .str "high")],
                .obj [("platform", .str "iOS"), ("test_priority", .str "low")],
                .obj [("platform", .str "android"), ("test_priority", .str "HIGH")]]⟩) ∧
    get_device_data (⟨"td", fun _ => none, fun _ => .ok .null, fun _ => .ok .null⟩ : DMCtx)
        [] (some "Android") none = (.arr [], []) :=
  ⟨C8_amended_device_filtering.1 c8wCtx [] _ (some "Android") (some "high") _ true
      (by decide) (by decide),
   C8_amended_device_filtering.2 _ [] [] (some "Android") none
      (.fileNotFound ("td" ++ "/" ++ "devices.csv")) false (by decide)⟩

end MobilePython
